import Mathlib

/-! Magikoopa `PatchMaker`: layout arithmetic, header fixup, symbol resolution and splice.

A shallow embedding of `MagikoopaUI/patchmaker.cpp`.  `quint32` values are natural
numbers, and every operation that can wrap is reduced modulo `2 ^ 32` explicitly.
-/

/-! ## 32-bit unsigned arithmetic -/

/-- Reduction of a natural number to the `quint32` it is stored as. -/
def u32 (n : Nat) : Nat := n % 4294967296

/-- Addition `a + b` of two `quint32` values. -/
def add32 (a b : Nat) : Nat := u32 (a + b)

/-- Subtraction `a - b` of two `quint32` values (wraps below zero). -/
def sub32 (a b : Nat) : Nat := u32 (a + (4294967296 - u32 b))

/-- Bitwise complement `~a` seen as a `quint32` operand: `~0xF` is `0xFFFFFFF0`. -/
def not32 (a : Nat) : Nat := 4294967295 - u32 a

/-- Bitwise conjunction `a & b`. -/
def and32 (a b : Nat) : Nat := a &&& b

/-- Left shift `a << k` of a `quint32` value. -/
def shl32 (a k : Nat) : Nat := u32 (a <<< k)

/-- Right shift `a >> k` of a `quint32` value. -/
def shr32 (a k : Nat) : Nat := a >>> k

/-- The align-up expression `(x + (n - 1)) & ~(n - 1)` the code writes inline, on
`quint32` operands (`n` is `0x10` or `0x1000` in the source). -/
def alignUp (x n : Nat) : Nat := and32 (add32 x (n - 1)) (not32 (n - 1))

/-! ## Header model -/

/-- One `CodeSetInfo` entry of the executable header: three `quint32` fields. -/
structure CodeSetInfo where
  address : Nat
  physicalRegionSize : Nat
  size : Nat
  deriving DecidableEq

/-- The fields of `Exheader::data.sci` that `patchmaker.cpp` reads or writes.  The
type is declared in `exheader.h`; the field names are those the source uses. -/
structure Exheader where
  title : String
  textCodeSetInfo : CodeSetInfo
  readOnlyCodeSetInfo : CodeSetInfo
  dataCodeSetInfo : CodeSetInfo
  bssSize : Nat
  deriving DecidableEq

/-- Every field of the entry fits a `quint32`. -/
def CodeSetInfo.valid (c : CodeSetInfo) : Prop :=
  c.address < 4294967296 ∧ c.physicalRegionSize < 4294967296 ∧ c.size < 4294967296

instance (c : CodeSetInfo) : Decidable c.valid := by
  unfold CodeSetInfo.valid; infer_instance

/-- Every numeric field of the header fits a `quint32`. -/
def Exheader.valid (h : Exheader) : Prop :=
  h.textCodeSetInfo.valid ∧ h.readOnlyCodeSetInfo.valid ∧ h.dataCodeSetInfo.valid ∧
    h.bssSize < 4294967296

instance (h : Exheader) : Decidable h.valid := by
  unfold Exheader.valid; infer_instance

/-- The header invariant for one segment: `size = physicalRegionSize << 12`. -/
def CodeSetInfo.sized (c : CodeSetInfo) : Prop :=
  c.size = shl32 c.physicalRegionSize 12

instance (c : CodeSetInfo) : Decidable c.sized := by
  unfold CodeSetInfo.sized; infer_instance

/-! ## `PatchMaker::setPath`: the layout calculation -/

/-- The layout members of `PatchMaker` that `setPath` assigns. -/
structure PatchMaker where
  m_loaderOffset : Nat
  m_loaderMaxSize : Nat
  m_newCodeOffset : Nat
  deriving DecidableEq

/-- Line 70: `(text.size + 0x100000 + 0xF) & ~0xF`. -/
def PatchMaker.loaderOffset (exHeader : Exheader) : Nat :=
  and32 (add32 (add32 exHeader.textCodeSetInfo.size 0x100000) 0xF) (not32 0xF)

/-- Line 72: `data.address + (data.physicalRegionSize << 12) + ((bssSize + 0xFFF) & ~0xFFF)`. -/
def PatchMaker.newCodeOffset (exHeader : Exheader) : Nat :=
  add32
    (add32 exHeader.dataCodeSetInfo.address (shl32 exHeader.dataCodeSetInfo.physicalRegionSize 12))
    (and32 (add32 exHeader.bssSize 0xFFF) (not32 0xFFF))

/-- Lines 69-72 of `PatchMaker::setPath`, once the header has been loaded. -/
def PatchMaker.setPath (exHeader : Exheader) : PatchMaker :=
  let m_loaderOffset := PatchMaker.loaderOffset exHeader
  { m_loaderOffset := m_loaderOffset
    m_loaderMaxSize := sub32 exHeader.readOnlyCodeSetInfo.address m_loaderOffset
    m_newCodeOffset := PatchMaker.newCodeOffset exHeader }

/-! ## `PatchMaker::fixExheader`: the header fixup -/

/-- Lines 281-287 of `PatchMaker::fixExheader`: the five assignments, in order. -/
def PatchMaker.fixExheader (exHeader : Exheader) (newCodeSize : Nat) : Exheader :=
  let h1 : Exheader :=
    { exHeader with
      textCodeSetInfo :=
        { exHeader.textCodeSetInfo with
          size := shl32 exHeader.textCodeSetInfo.physicalRegionSize 12 } }
  let h2 : Exheader :=
    { h1 with
      dataCodeSetInfo :=
        { h1.dataCodeSetInfo with
          physicalRegionSize :=
            add32 h1.dataCodeSetInfo.physicalRegionSize
              (shr32 (and32 (add32 h1.bssSize 0xFFF) (not32 0xFFF)) 12) } }
  let h3 : Exheader :=
    { h2 with
      dataCodeSetInfo :=
        { h2.dataCodeSetInfo with
          physicalRegionSize :=
            add32 h2.dataCodeSetInfo.physicalRegionSize
              (shr32 (and32 (add32 newCodeSize 0xFFF) (not32 0xFFF)) 12) } }
  let h4 : Exheader :=
    { h3 with
      dataCodeSetInfo :=
        { h3.dataCodeSetInfo with size := shl32 h3.dataCodeSetInfo.physicalRegionSize 12 } }
  { h4 with bssSize := 0 }

/-- A header used in the worked examples: text.size `0x2000`, readonly.address `0x200000`. -/
def exampleHeaderA : Exheader :=
  { title := "A"
    textCodeSetInfo := { address := 0x100000, physicalRegionSize := 2, size := 0x2000 }
    readOnlyCodeSetInfo := { address := 0x200000, physicalRegionSize := 1, size := 0x1000 }
    dataCodeSetInfo := { address := 0x201000, physicalRegionSize := 2, size := 0x2000 }
    bssSize := 0x1800 }

/-- The header of the end-to-end scenario. -/
def exampleHeaderB : Exheader :=
  { title := "B"
    textCodeSetInfo := { address := 0x100000, physicalRegionSize := 1, size := 0x1000 }
    readOnlyCodeSetInfo := { address := 0x110000, physicalRegionSize := 1, size := 0x1000 }
    dataCodeSetInfo := { address := 0x120000, physicalRegionSize := 1, size := 0x1000 }
    bssSize := 0x100 }

/-! ## Symbol listing

`QString` values are `String`s and a `QStringList` is a `List String`.  The symbol file is
the list of lines that `QTextStream::readLine` returns until `atEnd`.  The conversion
`QString::toUInt(&ok, 0x10)` is a Qt routine: the definitions take it as the argument
`toUInt`, whose result is `none` when `ok` is false and `some v` when `ok` is true. -/

/-- The pieces of a character sequence between occurrences of `sep`, empty pieces kept. -/
def splitChars (sep : Char) : List Char → List (List Char)
  | [] => [[]]
  | c :: cs =>
    if c = sep then [] :: splitChars sep cs
    else
      match splitChars sep cs with
      | [] => [[c]]
      | w :: ws => (c :: w) :: ws

/-- The call `line.split(" ")`: the pieces between single spaces, empty pieces kept. -/
def splitSpace (line : String) : List String :=
  (splitChars ' ' line.data).map String.mk

/-- The lines of a text: the pieces between line feeds, without a final empty piece (the
stream is at its end after the last line feed). -/
def readLines (text : String) : List String :=
  let parts := splitChars '\n' text.data
  (if parts.getLast? = some [] then parts.dropLast else parts).map String.mk

/-- The value of one hexadecimal digit. -/
def hexDigit (c : Char) : Option Nat :=
  if '0' ≤ c ∧ c ≤ '9' then some (c.toNat - '0'.toNat)
  else if 'a' ≤ c ∧ c ≤ 'f' then some (c.toNat - 'a'.toNat + 10)
  else if 'A' ≤ c ∧ c ≤ 'F' then some (c.toNat - 'A'.toNat + 10)
  else none

/-- The base-16 value of a sequence of hexadecimal digits, most significant first. -/
def hexValue (acc : Nat) : List Char → Option Nat
  | [] => some acc
  | c :: cs =>
    match hexDigit c with
    | none => none
    | some d => hexValue (acc * 16 + d) cs

/-- The conversion used in the worked examples: a token of one or more hexadecimal digits
whose value fits a `quint32` converts to that value, any other token fails.  On such tokens
this is what `QString::toUInt(&ok, 0x10)` returns. -/
def hexToUInt (s : String) : Option Nat :=
  match s.data with
  | [] => none
  | cs =>
    match hexValue 0 cs with
    | none => none
    | some v => if v < 4294967296 then some v else none

/-- The function `checkListForSymVar(var, foundVar, segs, name)` of lines 149-165: the new
values of `*var` and `*foundVar`.  A failed conversion stores the `0` that `toUInt` returns
and leaves `*foundVar` false. -/
def checkListForSymVar (toUInt : String → Option Nat) (var : Nat) (foundVar : Bool)
    (segs : List String) (name : String) : Nat × Bool :=
  if foundVar then (var, foundVar)
  else if segs.getLast? = some name then
    match toUInt (segs.headD "") with
    | none => (0, foundVar)
    | some v => (v, true)
  else (var, foundVar)

/-- The eight locals of `PatchMaker::insert` that the scan of the symbol file updates. -/
structure LoaderSyms where
  loaderMainAddr : Nat
  loaderTextEnd : Nat
  loaderDataStart : Nat
  loaderDataEnd : Nat
  loaderMainAddrFound : Bool
  loaderTextEndFound : Bool
  loaderDataStartFound : Bool
  loaderDataEndFound : Bool
  deriving DecidableEq

/-- The locals before the loop (lines 176-184): the four flags are false; the four addresses
are not initialised and are not read before a flag is set, they are `0` here. -/
def LoaderSyms.init : LoaderSyms :=
  { loaderMainAddr := 0, loaderTextEnd := 0, loaderDataStart := 0, loaderDataEnd := 0
    loaderMainAddrFound := false, loaderTextEndFound := false
    loaderDataStartFound := false, loaderDataEndFound := false }

/-- One iteration of the loop of lines 186-197 on the line just read. -/
def scanLine (toUInt : String → Option Nat) (s : LoaderSyms) (line : String) : LoaderSyms :=
  let segs := splitSpace line
  if segs.length < 2 then s
  else
    let r1 := checkListForSymVar toUInt s.loaderMainAddr s.loaderMainAddrFound segs "LoaderMain"
    let r2 := checkListForSymVar toUInt s.loaderTextEnd s.loaderTextEndFound segs "__text_end"
    let r3 :=
      checkListForSymVar toUInt s.loaderDataStart s.loaderDataStartFound segs "__data_start"
    let r4 := checkListForSymVar toUInt s.loaderDataEnd s.loaderDataEndFound segs "__data_end"
    { loaderMainAddr := r1.1, loaderTextEnd := r2.1, loaderDataStart := r3.1
      loaderDataEnd := r4.1, loaderMainAddrFound := r1.2, loaderTextEndFound := r2.2
      loaderDataStartFound := r3.2, loaderDataEndFound := r4.2 }

/-- The loop of lines 186-197 over all the lines of the symbol file. -/
def scanLines (toUInt : String → Option Nat) (lines : List String) : LoaderSyms :=
  lines.foldl (scanLine toUInt) LoaderSyms.init

/-- The checks of lines 200-211 after the loop: the status text of the failure, or the
resolved locals. -/
def resolveSymbols (toUInt : String → Option Nat) (lines : List String) :
    Except String LoaderSyms :=
  let s := scanLines toUInt lines
  if !s.loaderMainAddrFound then Except.error "LoaderMain not found"
  else if !s.loaderTextEndFound || !s.loaderDataStartFound || !s.loaderDataEndFound then
    Except.error "Parsing Loader sections failed"
  else Except.ok s

deriving instance DecidableEq for Except

/-- The four names the scan looks for. -/
inductive SymName where
  | loaderMain
  | textEnd
  | dataStart
  | dataEnd
  deriving DecidableEq

/-- The text of a required name, as passed to `checkListForSymVar`. -/
def SymName.str : SymName → String
  | SymName.loaderMain => "LoaderMain"
  | SymName.textEnd => "__text_end"
  | SymName.dataStart => "__data_start"
  | SymName.dataEnd => "__data_end"

/-- The local that holds the address of a required name. -/
def LoaderSyms.addr (s : LoaderSyms) : SymName → Nat
  | SymName.loaderMain => s.loaderMainAddr
  | SymName.textEnd => s.loaderTextEnd
  | SymName.dataStart => s.loaderDataStart
  | SymName.dataEnd => s.loaderDataEnd

/-- The local that tells whether a required name has been found. -/
def LoaderSyms.found (s : LoaderSyms) : SymName → Bool
  | SymName.loaderMain => s.loaderMainAddrFound
  | SymName.textEnd => s.loaderTextEndFound
  | SymName.dataStart => s.loaderDataStartFound
  | SymName.dataEnd => s.loaderDataEndFound

/-- The matching rule in the words of the specification: a line with at least two
space-separated tokens whose last token is the name matches with the value of its first
token when that token converts, and does not match otherwise. -/
def lineValue (toUInt : String → Option Nat) (name : String) (line : String) : Option Nat :=
  if 2 ≤ (splitSpace line).length ∧ (splitSpace line).getLast? = some name then
    toUInt ((splitSpace line).headD "")
  else none

/-- The resolution of one name in the words of the specification: the value of the first
line, in file order, that matches. -/
def firstMatch (toUInt : String → Option Nat) (name : String) (lines : List String) :
    Option Nat :=
  lines.findSome? (lineValue toUInt name)

/-- The required names that no line of the listing matches. -/
def missingNames (toUInt : String → Option Nat) (lines : List String) : List SymName :=
  [SymName.loaderMain, SymName.textEnd, SymName.dataStart, SymName.dataEnd].filter
    (fun k => (firstMatch toUInt k.str lines).isNone)

/-- The three conditions under which a line matches a name: at least two tokens, the last
token is the name, the first token converts. -/
def lineMatches (toUInt : String → Option Nat) (name : String) (line : String) : Prop :=
  2 ≤ (splitSpace line).length ∧ (splitSpace line).getLast? = some name
    ∧ (toUInt ((splitSpace line).headD "")).isSome = true

instance (toUInt : String → Option Nat) (name line : String) :
    Decidable (lineMatches toUInt name line) := by
  unfold lineMatches; infer_instance

/-- The effect of one loop iteration on the pair `(var, foundVar)` of a single name. -/
def stepSym (toUInt : String → Option Nat) (name : String) (p : Nat × Bool) (line : String) :
    Nat × Bool :=
  if (splitSpace line).length < 2 then p
  else checkListForSymVar toUInt p.1 p.2 (splitSpace line) name

/-! ## Code image splice -/

/-- Modelled from the spec: the `ExternalFile` class of `Filesystem/filesystem.h`, whose
code is not part of the sources at hand.  A file is its bytes and a position; `resize` grows
the file to a length (added bytes are zero) and never shrinks it, a write at the position
replaces the bytes there and extends the file when it runs past the end, a read returns the
bytes that are available from the position on. -/
structure ExternalFile where
  data : List Nat
  pos : Nat
  deriving DecidableEq

/-- Modelled from the spec: `size()`. -/
def ExternalFile.size (f : ExternalFile) : Nat := f.data.length

/-- Modelled from the spec: `resize(n)`, step 2 of the splice, "grow it to `n` bytes": a
file shorter than `n` bytes gets zero bytes at its end up to `n` bytes; the code image "grows
monotonically and is never shrunk", so a file of `n` bytes or more is left as it is. -/
def ExternalFile.resize (f : ExternalFile) (n : Nat) : ExternalFile :=
  { f with data := f.data ++ List.replicate (n - f.data.length) 0 }

/-- Modelled from the spec: `seek(p)`. -/
def ExternalFile.seek (f : ExternalFile) (p : Nat) : ExternalFile :=
  { f with pos := p }

/-- Modelled from the spec: `writeData(bytes, len)` with `len` the length of `bytes`.  A
write of no bytes changes nothing; a write that starts past the end of the file leaves zero
bytes in between. -/
def ExternalFile.writeData (f : ExternalFile) (bytes : List Nat) : ExternalFile :=
  match bytes with
  | [] => f
  | b :: bs =>
    let padded := f.data ++ List.replicate (f.pos - f.data.length) 0
    { data := padded.take f.pos ++ (b :: bs) ++ padded.drop (f.pos + (b :: bs).length)
      pos := f.pos + (b :: bs).length }

/-- Modelled from the spec: `write8(b)`. -/
def ExternalFile.write8 (f : ExternalFile) (b : Nat) : ExternalFile :=
  f.writeData [b]

/-- Modelled from the spec: `readData(buffer, len)` into a fresh buffer `new quint8[len]`.
The bytes available from the position fill the start of the buffer; the bytes of the buffer
that the read does not reach are not initialised, byte `i` of them is `junk i`. -/
def ExternalFile.readData (f : ExternalFile) (junk : Nat → Nat) (len : Nat) :
    List Nat × ExternalFile :=
  let got := (f.data.drop f.pos).take len
  (got ++ (List.range (len - got.length)).map (fun i => junk (got.length + i)),
    { f with pos := f.pos + got.length })

/-- The loop `while (codeFile->pos() < target) codeFile->write8(0);` with a bound on the
number of iterations. -/
def clearLoop : Nat → ExternalFile → Nat → ExternalFile
  | 0, f, _ => f
  | fuel + 1, f, target =>
    if f.pos < target then clearLoop fuel (f.write8 0) target else f

/-- The loop `while (codeFile->pos() < target) codeFile->write8(0);`: it runs
`target - pos` times. -/
def clearTo (f : ExternalFile) (target : Nat) : ExternalFile :=
  clearLoop (target - f.pos) f target

/-- Lines 222-252 of `PatchMaker::insert`: the bytes of `code.bin` after the splice. -/
def PatchMaker.splice (junk : Nat → Nat) (m : PatchMaker) (s : LoaderSyms)
    (codeBin loaderBin : List Nat) : List Nat :=
  let codeFile : ExternalFile := { data := codeBin, pos := 0 }
  let loaderFile : ExternalFile := { data := loaderBin, pos := 0 }
  let oldCodeSize := u32 codeFile.size
  let codeFile := codeFile.resize (sub32 s.loaderDataEnd 0x100000)
  let codeFile := codeFile.seek oldCodeSize
  -- Clear BSS section
  let codeFile := clearTo codeFile (sub32 m.m_newCodeOffset 0x100000)
  -- Insert Loader Text
  let loaderTextSize := sub32 s.loaderTextEnd m.m_loaderOffset
  let loaderFile := loaderFile.seek 0
  let loaderText := loaderFile.readData junk loaderTextSize
  let codeFile := codeFile.seek (sub32 m.m_loaderOffset 0x100000)
  let codeFile := codeFile.writeData loaderText.1
  -- Clear Padding to Loader Data
  let codeFile := clearTo codeFile (sub32 s.loaderDataStart 0x100000)
  -- Insert Loader Data
  let loaderDataSize := sub32 s.loaderDataEnd s.loaderDataStart
  let loaderFile := loaderText.2.seek (sub32 s.loaderDataStart m.m_loaderOffset)
  let loaderData := loaderFile.readData junk loaderDataSize
  let codeFile := codeFile.seek (sub32 s.loaderDataStart 0x100000)
  let codeFile := codeFile.writeData loaderData.1
  codeFile.data

/-- Lines 222-228 of `PatchMaker::insert`: the code file after the resize, the seek to the
old size and the loop that clears the bss section. -/
def PatchMaker.spliceBss (m : PatchMaker) (s : LoaderSyms) (codeBin : List Nat) :
    ExternalFile :=
  let codeFile : ExternalFile := { data := codeBin, pos := 0 }
  let oldCodeSize := u32 codeFile.size
  let codeFile := codeFile.resize (sub32 s.loaderDataEnd 0x100000)
  let codeFile := codeFile.seek oldCodeSize
  clearTo codeFile (sub32 m.m_newCodeOffset 0x100000)

/-- Lines 230-237 of `PatchMaker::insert`: the code file after the loader text is written. -/
def PatchMaker.spliceText (junk : Nat → Nat) (m : PatchMaker) (s : LoaderSyms)
    (codeFile : ExternalFile) (loaderBin : List Nat) : ExternalFile :=
  let loaderFile : ExternalFile := { data := loaderBin, pos := 0 }
  let loaderTextSize := sub32 s.loaderTextEnd m.m_loaderOffset
  let loaderFile := loaderFile.seek 0
  let loaderText := loaderFile.readData junk loaderTextSize
  let codeFile := codeFile.seek (sub32 m.m_loaderOffset 0x100000)
  codeFile.writeData loaderText.1

/-- Lines 239-241 of `PatchMaker::insert`: the code file after the padding loop. -/
def PatchMaker.splicePadding (s : LoaderSyms) (codeFile : ExternalFile) : ExternalFile :=
  clearTo codeFile (sub32 s.loaderDataStart 0x100000)

/-- Lines 243-252 of `PatchMaker::insert`: the code file after the loader data is written. -/
def PatchMaker.spliceData (junk : Nat → Nat) (m : PatchMaker) (s : LoaderSyms)
    (codeFile : ExternalFile) (loaderBin : List Nat) : ExternalFile :=
  let loaderDataSize := sub32 s.loaderDataEnd s.loaderDataStart
  let loaderFile : ExternalFile :=
    { data := loaderBin, pos := sub32 s.loaderDataStart m.m_loaderOffset }
  let loaderData := loaderFile.readData junk loaderDataSize
  let codeFile := codeFile.seek (sub32 s.loaderDataStart 0x100000)
  codeFile.writeData loaderData.1

/-- The files of the working directory that `PatchMaker::insert` reads or writes. -/
structure ProjectFiles where
  loaderSym : List String
  codeBin : List Nat
  loaderBin : List Nat
  exheaderBin : Exheader
  deriving DecidableEq

/-- The signals `PatchMaker` emits. -/
inductive Signal where
  | updateStatus (text : String)
  | setBusy (busy : Bool)
  deriving DecidableEq

/-- The method `PatchMaker::insert` (lines 167-275) followed by the `fixExheader` it calls
(lines 277-293): the files afterwards and the signals emitted, in order. -/
def PatchMaker.insert (toUInt : String → Option Nat) (junk : Nat → Nat) (m : PatchMaker)
    (fs : ProjectFiles) : ProjectFiles × List Signal :=
  match resolveSymbols toUInt fs.loaderSym with
  | Except.error status =>
    (fs, [Signal.updateStatus "Inserting...", Signal.updateStatus status, Signal.setBusy false])
  | Except.ok s =>
    ({ fs with
        codeBin := PatchMaker.splice junk m s fs.codeBin fs.loaderBin
        exheaderBin :=
          PatchMaker.fixExheader fs.exheaderBin (sub32 s.loaderDataEnd m.m_newCodeOffset) },
      [Signal.updateStatus "Inserting...", Signal.updateStatus "Fixing Exheader",
        Signal.setBusy false, Signal.updateStatus "All done"])

/-- The symbol listing of the worked example, one line. -/
def listingMain : List String := readLines "00012345 T LoaderMain\n"

/-- A listing whose first `LoaderMain` line has a first token that does not convert, and
which names `LoaderMain` twice more. -/
def listingRetry : List String :=
  ["zz T LoaderMain", "00012345 T LoaderMain", "00054321 T LoaderMain"]

/-- A listing with all four names, `LoaderMain` twice with different addresses. -/
def listingTwice : List String :=
  ["00101000 T LoaderMain", "00102000 T LoaderMain", "00103000 T __text_end",
    "00104000 D __data_start", "00105000 D __data_end"]

/-- The listing `listingTwice` with its first two lines exchanged. -/
def listingTwiceSwapped : List String :=
  ["00102000 T LoaderMain", "00101000 T LoaderMain", "00103000 T __text_end",
    "00104000 D __data_start", "00105000 D __data_end"]

/-- A listing with `LoaderMain`, `__text_end` and `__data_start`, without `__data_end`. -/
def listingNoDataEnd : List String :=
  ["00101000 T LoaderMain", "00101100 T __text_end", "00123000 D __data_start"]

/-- A listing with `LoaderMain`, `__data_start` and `__data_end`, without `__text_end`. -/
def listingNoTextEnd : List String :=
  ["00101000 T LoaderMain", "00123000 D __data_start", "00123100 D __data_end"]

/-- A listing with each of the four names once. -/
def listingFull : List String :=
  ["00101000 T LoaderMain", "00101100 T __text_end", "00123000 D __data_start",
    "00123100 D __data_end"]

/-- The lines of `listingFull` in another order. -/
def listingFullShuffled : List String :=
  ["00123100 D __data_end", "00101000 T LoaderMain", "00123000 D __data_start",
    "00101100 T __text_end"]

/-- Files for the worked examples of `insert`. -/
def exampleFiles (lines : List String) : ProjectFiles :=
  { loaderSym := lines, codeBin := [1, 2, 3], loaderBin := [7, 8], exheaderBin := exampleHeaderB }

/-! ## Branch encoder -/

/-- The method `PatchMaker::makeBranchOpcode` (lines 295-306).  The `int offset` is kept as
its 32-bit two's-complement pattern: the difference is computed on `quint32` operands, and
`offset &= 0x00FFFFFF` keeps the low 24 bits of that pattern, a non-negative `int`. -/
def PatchMaker.makeBranchOpcode (src dest : Nat) (link : Bool) : Nat :=
  let ret := 0xEA000000
  let ret := if link then ret ||| 0x01000000 else ret
  let offset := sub32 (sub32 (dest / 4) (src / 4)) 2
  let offset := and32 offset 0x00FFFFFF
  ret ||| offset

/-- The signed value of a 24-bit field. -/
def signExtend24 (x : Nat) : Int :=
  if x < 8388608 then (x : Int) else (x : Int) - 16777216

/-- The target of a branch instruction placed at `src`: `src + 8 + 4 * signExtend24(field)`
modulo `2 ^ 32`, the field being the low 24 bits of the opcode. -/
def branchTarget (src opcode : Nat) : Nat :=
  (((src : Int) + 8 + 4 * signExtend24 (opcode &&& 0x00FFFFFF)) % 4294967296).toNat

/-! ## Worked splice -/

/-- A layout for the worked splice: loader at `0x100002`, injected code at `0x100008`. -/
def exampleLayout : PatchMaker :=
  { m_loaderOffset := 0x100002, m_loaderMaxSize := 0x10, m_newCodeOffset := 0x100008 }

/-- A listing for the worked splice: loader text `[0x100002, 0x100004)`, loader data
`[0x10000A, 0x10000C)`. -/
def exampleListing : List String :=
  ["00100002 T LoaderMain", "00100004 T __text_end", "0010000A D __data_start",
    "0010000C D __data_end"]

/-- The files of the worked splice: six bytes of code, ten bytes of loader image. -/
def exampleSpliceFiles : ProjectFiles :=
  { loaderSym := exampleListing
    codeBin := [1, 2, 3, 4, 5, 6]
    loaderBin := [11, 12, 13, 14, 15, 16, 17, 18, 19, 20]
    exheaderBin := exampleHeaderB }

/-- A layout whose injected code offset lies before the end of the loader text. -/
def earlyCodeLayout : PatchMaker :=
  { m_loaderOffset := 0x100000, m_loaderMaxSize := 0x10, m_newCodeOffset := 0x100000 }

/-- Files with an empty code image and a loader text of two bytes at `0x100000`, the loader
data section being empty at `0x100004`. -/
def earlyCodeFiles : ProjectFiles :=
  { loaderSym := ["00100000 T LoaderMain", "00100002 T __text_end", "00100004 D __data_start",
      "00100004 D __data_end"]
    codeBin := []
    loaderBin := [9, 9, 9, 9]
    exheaderBin := exampleHeaderB }

/-- A layout whose injected code offset is `0x10` bytes past `0x100000`. -/
def bssLayout : PatchMaker :=
  { m_loaderOffset := 0x100000, m_loaderMaxSize := 0x10, m_newCodeOffset := 0x100010 }

/-- Files with an empty code image and all four symbols at `0x100000`. -/
def bssFiles : ProjectFiles :=
  { loaderSym := ["00100000 T LoaderMain", "00100000 T __text_end", "00100000 D __data_start",
      "00100000 D __data_end"]
    codeBin := []
    loaderBin := []
    exheaderBin := exampleHeaderB }

/-- Files with three bytes of code and a listing whose `__data_end` is `0x100001`, below the
end of the code image. -/
def shrinkFiles : ProjectFiles :=
  { loaderSym := ["00100000 T LoaderMain", "00100000 T __text_end", "00100000 D __data_start",
      "00100001 D __data_end"]
    codeBin := [1, 2, 3]
    loaderBin := [7]
    exheaderBin := exampleHeaderB }

/-- The files of the worked splice with a code image of twelve bytes, as long as the
spliced image. -/
def fullSpliceFiles : ProjectFiles :=
  { loaderSym := exampleListing
    codeBin := [1, 2, 3, 4, 5, 6, 7, 8, 9, 10, 11, 12]
    loaderBin := [11, 12, 13, 14, 15, 16, 17, 18, 19, 20]
    exheaderBin := exampleHeaderB }

/-- Files with an empty code image and a listing whose `__text_end` is `0x100008`, past
`__data_start` and `__data_end` at `0x100004`. -/
def pastEndFiles : ProjectFiles :=
  { loaderSym := ["00100000 T LoaderMain", "00100008 T __text_end", "00100004 D __data_start",
      "00100004 D __data_end"]
    codeBin := []
    loaderBin := [21, 22, 23, 24, 25, 26, 27, 28]
    exheaderBin := exampleHeaderB }

/-! ## Arithmetic lemmas -/

theorem land_high_mask (x k : Nat) (hx : x < 2 ^ 32) (hk : k ≤ 32) :
    x &&& (2 ^ 32 - 2 ^ k) = x / 2 ^ k * 2 ^ k := by
  have hmask : 2 ^ 32 - 2 ^ k = 2 ^ k * (2 ^ (32 - k) - 1) := by
    have : 2 ^ 32 = 2 ^ k * 2 ^ (32 - k) := by
      rw [← Nat.pow_add]; congr 1; omega
    rw [Nat.mul_sub, Nat.mul_one, ← this]
  apply Nat.eq_of_testBit_eq
  intro j
  rw [Nat.testBit_and, hmask, Nat.mul_comm (x / 2 ^ k), Nat.testBit_mul_pow_two,
    Nat.testBit_mul_pow_two, Nat.testBit_two_pow_sub_one, ← Nat.shiftRight_eq_div_pow,
    Nat.testBit_shiftRight]
  by_cases hj : k ≤ j
  · have e : k + (j - k) = j := by omega
    rw [e]
    by_cases hj2 : j < 32
    · have : j - k < 32 - k := by omega
      simp [hj, this]
    · have hb : x.testBit j = false := by
        apply Nat.testBit_lt_two_pow
        exact lt_of_lt_of_le hx (Nat.pow_le_pow_right (by decide) (by omega))
      simp [hb]
  · simp [hj]

theorem u32_lt (n : Nat) : u32 n < 2 ^ 32 := by
  unfold u32; omega

/-- The mask `& ~0xF` clears the low four bits of a `quint32`. -/
theorem and32_not32_0xF (x : Nat) : and32 (u32 x) (not32 0xF) = u32 x / 16 * 16 := by
  have h := land_high_mask (u32 x) 4 (u32_lt x) (by decide)
  simpa [and32, not32, u32] using h

/-- The mask `& ~0xFFF` clears the low twelve bits of a `quint32`. -/
theorem and32_not32_0xFFF (x : Nat) : and32 (u32 x) (not32 0xFFF) = u32 x / 4096 * 4096 := by
  have h := land_high_mask (u32 x) 12 (u32_lt x) (by decide)
  simpa [and32, not32, u32] using h

theorem alignUp_0x10 (x : Nat) : alignUp x 0x10 = (x + 15) % 4294967296 / 16 * 16 := by
  have h := and32_not32_0xF (x + 15)
  simpa [alignUp, add32, u32] using h

theorem alignUp_0x1000 (x : Nat) : alignUp x 0x1000 = (x + 4095) % 4294967296 / 4096 * 4096 := by
  have h := and32_not32_0xFFF (x + 4095)
  simpa [alignUp, add32, u32] using h

theorem loaderOffset_eq (h : Exheader) :
    PatchMaker.loaderOffset h
      = (h.textCodeSetInfo.size + 0x100000 + 0xF) % 4294967296 / 16 * 16 := by
  have e : add32 (add32 h.textCodeSetInfo.size 0x100000) 0xF
      = u32 (h.textCodeSetInfo.size + 0x100000 + 0xF) := by
    simp only [add32, u32]; omega
  rw [PatchMaker.loaderOffset, e, and32_not32_0xF]
  rfl

theorem newCodeOffset_eq (h : Exheader) :
    PatchMaker.newCodeOffset h
      = (h.dataCodeSetInfo.address + h.dataCodeSetInfo.physicalRegionSize * 4096 % 4294967296
          + (h.bssSize + 0xFFF) % 4294967296 / 4096 * 4096) % 4294967296 := by
  have e : and32 (add32 h.bssSize 0xFFF) (not32 0xFFF)
      = (h.bssSize + 0xFFF) % 4294967296 / 4096 * 4096 := and32_not32_0xFFF _
  rw [PatchMaker.newCodeOffset, e]
  simp only [add32, shl32, u32, Nat.shiftLeft_eq]
  omega

/-! ## Layout calculation -/

/-- C1: when `text.size + 0x100000 + 0xF` does not wrap, `m_loaderOffset` is the smallest
multiple of `0x10` that is at least `text.size + 0x100000`, `m_loaderMaxSize` is the 32-bit
difference `readonly.address - m_loaderOffset`, and the two add up to `readonly.address`
(in 32-bit arithmetic, and exactly when the loader offset does not exceed it). -/
theorem C1_setPath_loader_layout (h : Exheader) (hv : h.valid)
    (hno : h.textCodeSetInfo.size + 0x100000 + 0xF < 2 ^ 32) :
    (PatchMaker.setPath h).m_loaderOffset % 0x10 = 0
    ∧ h.textCodeSetInfo.size + 0x100000 ≤ (PatchMaker.setPath h).m_loaderOffset
    ∧ (∀ k : Nat, k % 0x10 = 0 → h.textCodeSetInfo.size + 0x100000 ≤ k →
        (PatchMaker.setPath h).m_loaderOffset ≤ k)
    ∧ ((PatchMaker.setPath h).m_loaderOffset ≤ h.readOnlyCodeSetInfo.address →
        (PatchMaker.setPath h).m_loaderMaxSize
          = h.readOnlyCodeSetInfo.address - (PatchMaker.setPath h).m_loaderOffset)
    ∧ (h.readOnlyCodeSetInfo.address < (PatchMaker.setPath h).m_loaderOffset →
        (PatchMaker.setPath h).m_loaderMaxSize
          = h.readOnlyCodeSetInfo.address + 2 ^ 32 - (PatchMaker.setPath h).m_loaderOffset)
    ∧ ((PatchMaker.setPath h).m_loaderOffset + (PatchMaker.setPath h).m_loaderMaxSize) % 2 ^ 32
        = h.readOnlyCodeSetInfo.address
    ∧ ((PatchMaker.setPath h).m_loaderOffset ≤ h.readOnlyCodeSetInfo.address →
        (PatchMaker.setPath h).m_loaderOffset + (PatchMaker.setPath h).m_loaderMaxSize
          = h.readOnlyCodeSetInfo.address) := by
  obtain ⟨-, ⟨hro, -, -⟩, -, -⟩ := hv
  have ho := loaderOffset_eq h
  simp only [PatchMaker.setPath, sub32, u32]
  generalize PatchMaker.loaderOffset h = off at ho ⊢
  norm_num at hno hro ho ⊢
  refine ⟨by omega, by omega, fun k hk hle => by omega, fun _ => by omega, fun _ => by omega,
    by omega, fun _ => by omega⟩

/-- C1 (worked example): text.size `0x2000` and readonly.address `0x200000` give
`m_loaderOffset = 0x102000` and `m_loaderMaxSize = 0xFE000`. -/
theorem C1_setPath_loader_layout_witness :
    exampleHeaderA.textCodeSetInfo.size = 0x2000
    ∧ exampleHeaderA.readOnlyCodeSetInfo.address = 0x200000
    ∧ (PatchMaker.setPath exampleHeaderA).m_loaderOffset = 0x102000
    ∧ (PatchMaker.setPath exampleHeaderA).m_loaderMaxSize = 0xFE000
    ∧ (PatchMaker.setPath exampleHeaderA).m_loaderOffset
        + (PatchMaker.setPath exampleHeaderA).m_loaderMaxSize
        = exampleHeaderA.readOnlyCodeSetInfo.address :=
  ⟨rfl, rfl, by decide, by decide,
    (C1_setPath_loader_layout exampleHeaderA (by decide) (by decide)).2.2.2.2.2.2 (by decide)⟩

/-- C2: `m_newCodeOffset` is `data.address + (data.physicalRegionSize << 12) +
align_up(bssSize, 0x1000)` in 32-bit arithmetic; it is a multiple of `0x1000` whenever
`data.address` is, and when nothing wraps it is at least
`data.address + (data.physicalRegionSize << 12) + bssSize`. -/
theorem C2_setPath_new_code_offset (h : Exheader) :
    (PatchMaker.setPath h).m_newCodeOffset
        = add32 (add32 h.dataCodeSetInfo.address (shl32 h.dataCodeSetInfo.physicalRegionSize 12))
            (alignUp h.bssSize 0x1000)
    ∧ (PatchMaker.setPath h).m_newCodeOffset
        = (h.dataCodeSetInfo.address + h.dataCodeSetInfo.physicalRegionSize * 4096 % 2 ^ 32
            + (h.bssSize + 0xFFF) % 2 ^ 32 / 4096 * 4096) % 2 ^ 32
    ∧ (h.dataCodeSetInfo.address % 0x1000 = 0 →
        (PatchMaker.setPath h).m_newCodeOffset % 0x1000 = 0)
    ∧ (h.dataCodeSetInfo.physicalRegionSize * 4096 < 2 ^ 32 → h.bssSize + 0xFFF < 2 ^ 32 →
        h.dataCodeSetInfo.address + h.dataCodeSetInfo.physicalRegionSize * 4096
          + (h.bssSize + 0xFFF) / 4096 * 4096 < 2 ^ 32 →
        h.dataCodeSetInfo.address + h.dataCodeSetInfo.physicalRegionSize * 4096 + h.bssSize
          ≤ (PatchMaker.setPath h).m_newCodeOffset) := by
  have ho := newCodeOffset_eq h
  refine ⟨rfl, ?_, ?_, ?_⟩
  all_goals
    simp only [PatchMaker.setPath]
    generalize PatchMaker.newCodeOffset h = off at ho ⊢
    norm_num at ho ⊢
    omega

/-- C2 (worked example): on the scenario header nothing wraps, the injected code is placed
at the page boundary `0x122000`, past `data.address + 0x1000 + bssSize = 0x121100`. -/
theorem C2_setPath_new_code_offset_witness :
    (PatchMaker.setPath exampleHeaderB).m_newCodeOffset = 0x122000
    ∧ (PatchMaker.setPath exampleHeaderB).m_newCodeOffset % 0x1000 = 0
    ∧ exampleHeaderB.dataCodeSetInfo.address
          + exampleHeaderB.dataCodeSetInfo.physicalRegionSize * 4096 + exampleHeaderB.bssSize
        ≤ (PatchMaker.setPath exampleHeaderB).m_newCodeOffset :=
  ⟨by decide, (C2_setPath_new_code_offset exampleHeaderB).2.2.1 (by decide),
    (C2_setPath_new_code_offset exampleHeaderB).2.2.2 (by decide) (by decide) (by decide)⟩

/-- C3 (as stated, refuted): the scenario header has the five field values of the claim, and
the layout calculation gives `m_newCodeOffset = 0x122000`, not `0x121000`: the data segment
ends at `0x121000` and the `0x100` bytes of bss take one more page. -/
theorem C3_setPath_scenario_counterexample :
    exampleHeaderB.textCodeSetInfo.size = 0x1000
    ∧ exampleHeaderB.readOnlyCodeSetInfo.address = 0x110000
    ∧ exampleHeaderB.dataCodeSetInfo.address = 0x120000
    ∧ exampleHeaderB.dataCodeSetInfo.physicalRegionSize = 1
    ∧ exampleHeaderB.bssSize = 0x100
    ∧ (PatchMaker.setPath exampleHeaderB).m_newCodeOffset = 0x122000
    ∧ ¬ ((PatchMaker.setPath exampleHeaderB).m_loaderOffset = 0x101000
          ∧ (PatchMaker.setPath exampleHeaderB).m_newCodeOffset = 0x121000) := by
  decide

/-- C3 (amended): every header with text.size `0x1000`, readonly.address `0x110000`,
data.address `0x120000`, data.physicalRegionSize `1` and bssSize `0x100` gets
`m_loaderOffset = 0x101000` and `m_newCodeOffset = 0x122000`. -/
theorem C3_setPath_scenario (h : Exheader)
    (h1 : h.textCodeSetInfo.size = 0x1000)
    (h2 : h.readOnlyCodeSetInfo.address = 0x110000)
    (h3 : h.dataCodeSetInfo.address = 0x120000)
    (h4 : h.dataCodeSetInfo.physicalRegionSize = 1)
    (h5 : h.bssSize = 0x100) :
    (PatchMaker.setPath h).m_loaderOffset = 0x101000
    ∧ (PatchMaker.setPath h).m_newCodeOffset = 0x122000 := by
  simp only [PatchMaker.setPath, PatchMaker.loaderOffset, PatchMaker.newCodeOffset, h1, h2, h3,
    h4, h5]
  decide

/-- C3 (amended, instance): the scenario header itself. -/
theorem C3_setPath_scenario_witness :
    (PatchMaker.setPath exampleHeaderB).m_loaderOffset = 0x101000
    ∧ (PatchMaker.setPath exampleHeaderB).m_newCodeOffset = 0x122000 :=
  C3_setPath_scenario exampleHeaderB rfl rfl rfl rfl rfl

/-! ## Header fixup -/

/-- C4: the fixup adds to `data.physicalRegionSize` the page counts of the page-rounded bss
size and of the page-rounded new code size, in 32-bit arithmetic; when nothing wraps the
result is `old + ceil(bssSize / 0x1000) + ceil(newCodeSize / 0x1000)`. -/
theorem C4_fixExheader_page_count (h : Exheader) (newCodeSize : Nat) :
    (PatchMaker.fixExheader h newCodeSize).dataCodeSetInfo.physicalRegionSize
        = add32 (add32 h.dataCodeSetInfo.physicalRegionSize (shr32 (alignUp h.bssSize 0x1000) 12))
            (shr32 (alignUp newCodeSize 0x1000) 12)
    ∧ (PatchMaker.fixExheader h newCodeSize).dataCodeSetInfo.physicalRegionSize
        = (h.dataCodeSetInfo.physicalRegionSize + (h.bssSize + 0xFFF) % 2 ^ 32 / 0x1000
            + (newCodeSize + 0xFFF) % 2 ^ 32 / 0x1000) % 2 ^ 32
    ∧ (h.bssSize + 0xFFF < 2 ^ 32 → newCodeSize + 0xFFF < 2 ^ 32 →
        h.dataCodeSetInfo.physicalRegionSize + h.bssSize ⌈/⌉ 0x1000 + newCodeSize ⌈/⌉ 0x1000
          < 2 ^ 32 →
        (PatchMaker.fixExheader h newCodeSize).dataCodeSetInfo.physicalRegionSize
          = h.dataCodeSetInfo.physicalRegionSize + h.bssSize ⌈/⌉ 0x1000
              + newCodeSize ⌈/⌉ 0x1000) := by
  have key : (PatchMaker.fixExheader h newCodeSize).dataCodeSetInfo.physicalRegionSize
      = add32 (add32 h.dataCodeSetInfo.physicalRegionSize (shr32 (alignUp h.bssSize 0x1000) 12))
          (shr32 (alignUp newCodeSize 0x1000) 12) := rfl
  refine ⟨rfl, ?_, ?_⟩
  · rw [key, alignUp_0x1000, alignUp_0x1000]
    simp only [add32, shr32, u32, Nat.shiftRight_eq_div_pow]
    norm_num
  · rw [key, alignUp_0x1000, alignUp_0x1000]
    simp only [add32, shr32, u32, Nat.shiftRight_eq_div_pow, Nat.ceilDiv_eq_add_pred_div]
    norm_num
    omega

/-- C4 (worked examples): bssSize `0x1800`, newCodeSize `0x500`, two data pages give `5`;
bssSize `0x100`, newCodeSize `0x200`, one data page give `3`. -/
theorem C4_fixExheader_page_count_witness :
    (exampleHeaderA.bssSize = 0x1800 ∧ exampleHeaderA.dataCodeSetInfo.physicalRegionSize = 2
      ∧ (PatchMaker.fixExheader exampleHeaderA 0x500).dataCodeSetInfo.physicalRegionSize = 5)
    ∧ (exampleHeaderB.bssSize = 0x100 ∧ exampleHeaderB.dataCodeSetInfo.physicalRegionSize = 1
      ∧ (PatchMaker.fixExheader exampleHeaderB 0x200).dataCodeSetInfo.physicalRegionSize = 3)
    ∧ (PatchMaker.fixExheader exampleHeaderA 0x500).dataCodeSetInfo.physicalRegionSize
        = exampleHeaderA.dataCodeSetInfo.physicalRegionSize + exampleHeaderA.bssSize ⌈/⌉ 0x1000
            + 0x500 ⌈/⌉ 0x1000 :=
  ⟨⟨rfl, rfl, by decide⟩, ⟨rfl, rfl, by decide⟩,
    (C4_fixExheader_page_count exampleHeaderA 0x500).2.2 (by decide) (by decide) (by decide)⟩

/-- C5: the header produced by the fixup has `bssSize = 0`, `text.size =
text.physicalRegionSize << 12` and `data.size = data.physicalRegionSize << 12` with the
updated page count; the read-only entry, the text page count and the segment addresses are
untouched, so a sized read-only entry makes all three entries of the output sized. -/
theorem C5_fixExheader_invariant (h : Exheader) (newCodeSize : Nat) :
    (PatchMaker.fixExheader h newCodeSize).bssSize = 0
    ∧ (PatchMaker.fixExheader h newCodeSize).textCodeSetInfo.sized
    ∧ (PatchMaker.fixExheader h newCodeSize).dataCodeSetInfo.sized
    ∧ (PatchMaker.fixExheader h newCodeSize).textCodeSetInfo.size
        = h.textCodeSetInfo.physicalRegionSize * 0x1000 % 2 ^ 32
    ∧ (PatchMaker.fixExheader h newCodeSize).dataCodeSetInfo.size
        = (PatchMaker.fixExheader h newCodeSize).dataCodeSetInfo.physicalRegionSize * 0x1000
            % 2 ^ 32
    ∧ (PatchMaker.fixExheader h newCodeSize).readOnlyCodeSetInfo = h.readOnlyCodeSetInfo
    ∧ (PatchMaker.fixExheader h newCodeSize).textCodeSetInfo.physicalRegionSize
        = h.textCodeSetInfo.physicalRegionSize
    ∧ (PatchMaker.fixExheader h newCodeSize).textCodeSetInfo.address = h.textCodeSetInfo.address
    ∧ (PatchMaker.fixExheader h newCodeSize).dataCodeSetInfo.address = h.dataCodeSetInfo.address
    ∧ (h.readOnlyCodeSetInfo.sized →
        (PatchMaker.fixExheader h newCodeSize).textCodeSetInfo.sized
        ∧ (PatchMaker.fixExheader h newCodeSize).readOnlyCodeSetInfo.sized
        ∧ (PatchMaker.fixExheader h newCodeSize).dataCodeSetInfo.sized) := by
  refine ⟨rfl, rfl, rfl, ?_, ?_, rfl, rfl, rfl, rfl, fun hro => ⟨rfl, hro, rfl⟩⟩
  · simp only [PatchMaker.fixExheader, shl32, u32, Nat.shiftLeft_eq]
    norm_num
  · simp only [PatchMaker.fixExheader, shl32, u32, Nat.shiftLeft_eq]
    norm_num

/-- C5 (instance): the scenario header has a sized read-only entry, and after the fixup with
`newCodeSize = 0x200` all three entries are sized, with three data pages and no bss. -/
theorem C5_fixExheader_invariant_witness :
    exampleHeaderB.readOnlyCodeSetInfo.sized
    ∧ (PatchMaker.fixExheader exampleHeaderB 0x200).dataCodeSetInfo.size = 0x3000
    ∧ ((PatchMaker.fixExheader exampleHeaderB 0x200).textCodeSetInfo.sized
        ∧ (PatchMaker.fixExheader exampleHeaderB 0x200).readOnlyCodeSetInfo.sized
        ∧ (PatchMaker.fixExheader exampleHeaderB 0x200).dataCodeSetInfo.sized) :=
  ⟨by decide, by decide,
    (C5_fixExheader_invariant exampleHeaderB 0x200).2.2.2.2.2.2.2.2.2 (by decide)⟩

/-! ## Alignment arithmetic -/

/-- The two inline expressions of `setPath` and the two of `fixExheader` are instances of
`alignUp`. -/
theorem alignUp_in_source (h : Exheader) (newCodeSize : Nat) :
    PatchMaker.loaderOffset h = alignUp (add32 h.textCodeSetInfo.size 0x100000) 0x10
    ∧ PatchMaker.newCodeOffset h
        = add32 (add32 h.dataCodeSetInfo.address
            (shl32 h.dataCodeSetInfo.physicalRegionSize 12)) (alignUp h.bssSize 0x1000)
    ∧ (PatchMaker.fixExheader h newCodeSize).dataCodeSetInfo.physicalRegionSize
        = add32 (add32 h.dataCodeSetInfo.physicalRegionSize
            (shr32 (alignUp h.bssSize 0x1000) 12)) (shr32 (alignUp newCodeSize 0x1000) 12) :=
  ⟨rfl, rfl, rfl⟩

/-- C6 (as stated, refuted): for the 32-bit value `x = 0xFFFFFFFF` and `n = 0x10` the sum
`x + 0xF` wraps to `0xE`, the expression returns `0`, and `0 >= x` fails. -/
theorem C6_alignUp_counterexample :
    0xFFFFFFFF < 2 ^ 32 ∧ alignUp 0xFFFFFFFF 0x10 = 0
    ∧ ¬ (alignUp 0xFFFFFFFF 0x10 ≥ 0xFFFFFFFF) := by
  decide

/-- C6 (amended): for every 32-bit `x` and `n = 0x10` or `n = 0x1000` the expression returns
a multiple of `n`; when `x + (n - 1)` does not wrap the result `r` has `r >= x` and
`r - x < n`; when it wraps the result is `0`. -/
theorem C6_alignUp_bounds (x n : Nat) (hx : x < 2 ^ 32) (hn : n = 0x10 ∨ n = 0x1000) :
    alignUp x n % n = 0
    ∧ (x + (n - 1) < 2 ^ 32 → x ≤ alignUp x n ∧ alignUp x n - x < n)
    ∧ (2 ^ 32 ≤ x + (n - 1) → alignUp x n = 0) := by
  rcases hn with rfl | rfl
  · rw [alignUp_0x10]
    norm_num at hx ⊢
    omega
  · rw [alignUp_0x1000]
    norm_num at hx ⊢
    omega

/-- C6 (amended, instance): `x = 0x1801`, `n = 0x1000` gives `0x2000`. -/
theorem C6_alignUp_bounds_witness :
    alignUp 0x1801 0x1000 = 0x2000
    ∧ (0x1801 ≤ alignUp 0x1801 0x1000 ∧ alignUp 0x1801 0x1000 - 0x1801 < 0x1000) :=
  ⟨by decide,
    (C6_alignUp_bounds 0x1801 0x1000 (by decide) (Or.inr rfl)).2.1 (by decide)⟩


/-! ## Symbol resolution -/

theorem lineValue_isSome_iff (toUInt : String → Option Nat) (name line : String) :
    (lineValue toUInt name line).isSome = true ↔ lineMatches toUInt name line := by
  unfold lineValue lineMatches
  by_cases h : 2 ≤ (splitSpace line).length ∧ (splitSpace line).getLast? = some name
  · rw [if_pos h]
    exact ⟨fun hs => ⟨h.1, h.2, hs⟩, fun hm => hm.2.2⟩
  · rw [if_neg h]
    exact ⟨fun hs => by simp at hs, fun hm => absurd ⟨hm.1, hm.2.1⟩ h⟩

theorem lineValue_eq_some_iff (toUInt : String → Option Nat) (name line : String) (v : Nat) :
    lineValue toUInt name line = some v ↔
      2 ≤ (splitSpace line).length ∧ (splitSpace line).getLast? = some name
        ∧ toUInt ((splitSpace line).headD "") = some v := by
  unfold lineValue
  by_cases h : 2 ≤ (splitSpace line).length ∧ (splitSpace line).getLast? = some name
  · rw [if_pos h]
    exact ⟨fun hs => ⟨h.1, h.2, hs⟩, fun hm => hm.2.2⟩
  · rw [if_neg h]
    exact ⟨fun hs => by simp at hs, fun hm => absurd ⟨hm.1, hm.2.1⟩ h⟩

theorem lineValue_eq_none_iff (toUInt : String → Option Nat) (name line : String) :
    lineValue toUInt name line = none ↔ ¬ lineMatches toUInt name line := by
  rw [← lineValue_isSome_iff]
  cases lineValue toUInt name line <;> simp

/-- A name that is already found is left alone by every later line. -/
theorem stepSym_found (toUInt : String → Option Nat) (name : String) (v : Nat)
    (line : String) : stepSym toUInt name (v, true) line = (v, true) := by
  unfold stepSym checkListForSymVar
  split <;> simp

/-- A line that matches resolves a name that is not yet found. -/
theorem stepSym_match (toUInt : String → Option Nat) (name : String) (v a : Nat)
    (line : String) (h : lineValue toUInt name line = some a) :
    stepSym toUInt name (v, false) line = (a, true) := by
  obtain ⟨h1, h2, h3⟩ := (lineValue_eq_some_iff toUInt name line a).1 h
  unfold stepSym checkListForSymVar
  rw [if_neg (by omega)]
  simp only [Bool.false_eq_true, if_false, h2, if_true, h3]

/-- A line that does not match leaves a name that is not yet found in that state. -/
theorem stepSym_no_match (toUInt : String → Option Nat) (name : String) (v : Nat)
    (line : String) (h : lineValue toUInt name line = none) :
    ∃ w, stepSym toUInt name (v, false) line = (w, false) := by
  unfold lineValue at h
  unfold stepSym checkListForSymVar
  by_cases h1 : (splitSpace line).length < 2
  · exact ⟨v, by rw [if_pos h1]⟩
  · rw [if_neg h1]
    by_cases h2 : (splitSpace line).getLast? = some name
    · rw [if_pos ⟨by omega, h2⟩] at h
      exact ⟨0, by simp only [Bool.false_eq_true, if_false, h2, if_true, h]⟩
    · exact ⟨v, by simp [h2]⟩

theorem foldl_stepSym_found (toUInt : String → Option Nat) (name : String) (v : Nat)
    (lines : List String) : lines.foldl (stepSym toUInt name) (v, true) = (v, true) := by
  induction lines with
  | nil => rfl
  | cons l ls ih => rw [List.foldl_cons, stepSym_found, ih]

theorem foldl_stepSym_some (toUInt : String → Option Nat) (name : String)
    (lines : List String) (v a : Nat) (h : firstMatch toUInt name lines = some a) :
    lines.foldl (stepSym toUInt name) (v, false) = (a, true) := by
  induction lines generalizing v with
  | nil => simp [firstMatch] at h
  | cons l ls ih =>
    rw [List.foldl_cons]
    unfold firstMatch at h ih
    rw [List.findSome?_cons] at h
    cases hl : lineValue toUInt name l with
    | some b =>
      rw [hl] at h
      simp only [Option.some.injEq] at h
      subst h
      rw [stepSym_match toUInt name v b l hl, foldl_stepSym_found]
    | none =>
      rw [hl] at h
      obtain ⟨w, hw⟩ := stepSym_no_match toUInt name v l hl
      rw [hw]
      exact ih w h

theorem foldl_stepSym_none (toUInt : String → Option Nat) (name : String)
    (lines : List String) (v : Nat) (h : firstMatch toUInt name lines = none) :
    (lines.foldl (stepSym toUInt name) (v, false)).2 = false := by
  induction lines generalizing v with
  | nil => rfl
  | cons l ls ih =>
    rw [List.foldl_cons]
    unfold firstMatch at h ih
    rw [List.findSome?_cons] at h
    cases hl : lineValue toUInt name l with
    | some b => rw [hl] at h; simp at h
    | none =>
      rw [hl] at h
      obtain ⟨w, hw⟩ := stepSym_no_match toUInt name v l hl
      rw [hw]
      exact ih w h

/-- The four names are scanned independently: one loop iteration acts on the locals of a
name as `stepSym` does. -/
theorem scanLine_component (toUInt : String → Option Nat) (s : LoaderSyms) (line : String)
    (k : SymName) :
    ((scanLine toUInt s line).addr k, (scanLine toUInt s line).found k)
      = stepSym toUInt k.str (s.addr k, s.found k) line := by
  unfold scanLine stepSym
  by_cases h : (splitSpace line).length < 2
  · simp only [h, if_true]
  · simp only [h, if_false]
    cases k <;> rfl

theorem foldl_scanLine_component (toUInt : String → Option Nat) (lines : List String)
    (s : LoaderSyms) (k : SymName) :
    ((lines.foldl (scanLine toUInt) s).addr k, (lines.foldl (scanLine toUInt) s).found k)
      = lines.foldl (stepSym toUInt k.str) (s.addr k, s.found k) := by
  induction lines generalizing s with
  | nil => rfl
  | cons l ls ih => rw [List.foldl_cons, List.foldl_cons, ih, scanLine_component]

theorem scanLines_component (toUInt : String → Option Nat) (lines : List String)
    (k : SymName) :
    ((scanLines toUInt lines).addr k, (scanLines toUInt lines).found k)
      = lines.foldl (stepSym toUInt k.str) (0, false) := by
  unfold scanLines
  rw [foldl_scanLine_component]
  cases k <;> rfl

/-- After the loop a name is found exactly when some line matches it. -/
theorem scanLines_found (toUInt : String → Option Nat) (lines : List String) (k : SymName) :
    (scanLines toUInt lines).found k = (firstMatch toUInt k.str lines).isSome := by
  have h := scanLines_component toUInt lines k
  cases hf : firstMatch toUInt k.str lines with
  | some a =>
    rw [foldl_stepSym_some toUInt k.str lines 0 a hf] at h
    simpa using (congrArg Prod.snd h)
  | none =>
    have h2 := foldl_stepSym_none toUInt k.str lines 0 hf
    rw [← h] at h2
    simpa using h2

/-- After the loop the address of a name is the value of its first matching line. -/
theorem scanLines_addr (toUInt : String → Option Nat) (lines : List String) (k : SymName)
    (a : Nat) (hf : firstMatch toUInt k.str lines = some a) :
    (scanLines toUInt lines).addr k = a := by
  have h := scanLines_component toUInt lines k
  rw [foldl_stepSym_some toUInt k.str lines 0 a hf] at h
  simpa using (congrArg Prod.fst h)

theorem firstMatch_isSome_iff (toUInt : String → Option Nat) (name : String)
    (lines : List String) :
    (firstMatch toUInt name lines).isSome = true ↔
      ∃ line ∈ lines, lineMatches toUInt name line := by
  unfold firstMatch
  rw [List.findSome?_isSome_iff]
  constructor
  · rintro ⟨x, hx, hs⟩
    exact ⟨x, hx, (lineValue_isSome_iff toUInt name x).1 hs⟩
  · rintro ⟨x, hx, hs⟩
    exact ⟨x, hx, (lineValue_isSome_iff toUInt name x).2 hs⟩

theorem scanLines_found_iff (toUInt : String → Option Nat) (lines : List String)
    (k : SymName) :
    (scanLines toUInt lines).found k = true ↔
      ∃ line ∈ lines, lineMatches toUInt k.str line := by
  rw [scanLines_found, firstMatch_isSome_iff]

/-- C7: when a required name is resolved, its address is the converted first token of the
first line, in file order, that has at least two tokens, the name as last token and a first
token that converts; the lines before it (among them lines that name the symbol with a first
token that does not convert) are passed over, and the lines after it change nothing. -/
theorem C7_resolved_address (toUInt : String → Option Nat) (lines : List String)
    (k : SymName) (hf : (scanLines toUInt lines).found k = true) :
    ∃ pre line post, lines = pre ++ line :: post
      ∧ (∀ p ∈ pre, ¬ lineMatches toUInt k.str p)
      ∧ 2 ≤ (splitSpace line).length
      ∧ (splitSpace line).getLast? = some k.str
      ∧ toUInt ((splitSpace line).headD "") = some ((scanLines toUInt lines).addr k) := by
  rw [scanLines_found] at hf
  obtain ⟨a, ha⟩ := Option.isSome_iff_exists.1 hf
  have haddr := scanLines_addr toUInt lines k a ha
  unfold firstMatch at ha
  obtain ⟨pre, line, post, hl, hv, hpre⟩ := List.findSome?_eq_some_iff.1 ha
  obtain ⟨h1, h2, h3⟩ := (lineValue_eq_some_iff toUInt k.str line a).1 hv
  refine ⟨pre, line, post, hl, ?_, h1, h2, ?_⟩
  · intro p hp
    exact (lineValue_eq_none_iff toUInt k.str p).1 (hpre p hp)
  · rw [haddr]; exact h3

/-- C7 (worked examples): the listing `"00012345 T LoaderMain\n"` resolves `LoaderMain` to
`0x00012345`; so does a listing whose first `LoaderMain` line has the first token `zz` and
whose third line names `LoaderMain` with another address. -/
theorem C7_resolved_address_witness :
    listingMain = ["00012345 T LoaderMain"]
    ∧ (scanLines hexToUInt listingMain).found SymName.loaderMain = true
    ∧ (scanLines hexToUInt listingMain).addr SymName.loaderMain = 0x00012345
    ∧ (scanLines hexToUInt listingRetry).found SymName.loaderMain = true
    ∧ (scanLines hexToUInt listingRetry).addr SymName.loaderMain = 0x00012345
    ∧ (∃ pre line post, listingRetry = pre ++ line :: post
        ∧ (∀ p ∈ pre, ¬ lineMatches hexToUInt SymName.loaderMain.str p)
        ∧ 2 ≤ (splitSpace line).length
        ∧ (splitSpace line).getLast? = some SymName.loaderMain.str
        ∧ hexToUInt ((splitSpace line).headD "")
            = some ((scanLines hexToUInt listingRetry).addr SymName.loaderMain)) :=
  ⟨by decide, by decide, by decide, by decide, by decide,
    C7_resolved_address hexToUInt listingRetry SymName.loaderMain (by decide)⟩

theorem forall_symName (P : SymName → Prop) :
    (∀ k, P k) ↔ P SymName.loaderMain ∧ P SymName.textEnd ∧ P SymName.dataStart
      ∧ P SymName.dataEnd := by
  constructor
  · intro h
    exact ⟨h _, h _, h _, h _⟩
  · rintro ⟨h1, h2, h3, h4⟩ k
    cases k <;> assumption

theorem resolveSymbols_ok_iff (toUInt : String → Option Nat) (lines : List String)
    (s : LoaderSyms) :
    resolveSymbols toUInt lines = Except.ok s ↔
      s = scanLines toUInt lines ∧ ∀ k : SymName, (scanLines toUInt lines).found k = true := by
  rw [forall_symName]
  unfold resolveSymbols
  simp only [LoaderSyms.found]
  cases (scanLines toUInt lines).loaderMainAddrFound <;>
    cases (scanLines toUInt lines).loaderTextEndFound <;>
    cases (scanLines toUInt lines).loaderDataStartFound <;>
    cases (scanLines toUInt lines).loaderDataEndFound <;>
    simp [eq_comm]

theorem resolveSymbols_error_iff (toUInt : String → Option Nat) (lines : List String)
    (e : String) :
    resolveSymbols toUInt lines = Except.error e ↔
      ((scanLines toUInt lines).found SymName.loaderMain = false ∧ e = "LoaderMain not found")
      ∨ ((scanLines toUInt lines).found SymName.loaderMain = true
          ∧ ((scanLines toUInt lines).found SymName.textEnd = false
              ∨ (scanLines toUInt lines).found SymName.dataStart = false
              ∨ (scanLines toUInt lines).found SymName.dataEnd = false)
          ∧ e = "Parsing Loader sections failed") := by
  unfold resolveSymbols
  simp only [LoaderSyms.found]
  cases (scanLines toUInt lines).loaderMainAddrFound <;>
    cases (scanLines toUInt lines).loaderTextEndFound <;>
    cases (scanLines toUInt lines).loaderDataStartFound <;>
    cases (scanLines toUInt lines).loaderDataEndFound <;>
    simp [eq_comm]

/-- C8: resolution succeeds exactly when each of the four names is matched by some line; it
fails with "LoaderMain not found" exactly when `LoaderMain` is unmatched, and with "Parsing
Loader sections failed" exactly when `LoaderMain` is matched and one of the other three is
not; on a failure `insert` leaves every file as it was and emits only the failure status and
`setBusy(false)`: no splice, no header fixup. -/
theorem C8_resolution_failure (toUInt : String → Option Nat) (junk : Nat → Nat)
    (m : PatchMaker) (fs : ProjectFiles) :
    ((∃ s, resolveSymbols toUInt fs.loaderSym = Except.ok s) ↔
        ∀ k : SymName, ∃ line ∈ fs.loaderSym, lineMatches toUInt k.str line)
    ∧ (resolveSymbols toUInt fs.loaderSym = Except.error "LoaderMain not found" ↔
        ¬ ∃ line ∈ fs.loaderSym, lineMatches toUInt "LoaderMain" line)
    ∧ (resolveSymbols toUInt fs.loaderSym = Except.error "Parsing Loader sections failed" ↔
        (∃ line ∈ fs.loaderSym, lineMatches toUInt "LoaderMain" line)
        ∧ ((¬ ∃ line ∈ fs.loaderSym, lineMatches toUInt "__text_end" line)
            ∨ (¬ ∃ line ∈ fs.loaderSym, lineMatches toUInt "__data_start" line)
            ∨ (¬ ∃ line ∈ fs.loaderSym, lineMatches toUInt "__data_end" line)))
    ∧ (∀ e, resolveSymbols toUInt fs.loaderSym = Except.error e →
        (e = "LoaderMain not found" ∨ e = "Parsing Loader sections failed")
        ∧ PatchMaker.insert toUInt junk m fs
            = (fs, [Signal.updateStatus "Inserting...", Signal.updateStatus e,
                Signal.setBusy false]))
    ∧ (∀ s, resolveSymbols toUInt fs.loaderSym = Except.ok s →
        (PatchMaker.insert toUInt junk m fs).2
            = [Signal.updateStatus "Inserting...", Signal.updateStatus "Fixing Exheader",
                Signal.setBusy false, Signal.updateStatus "All done"]) := by
  have hM := scanLines_found_iff toUInt fs.loaderSym SymName.loaderMain
  have hT := scanLines_found_iff toUInt fs.loaderSym SymName.textEnd
  have hS := scanLines_found_iff toUInt fs.loaderSym SymName.dataStart
  have hE := scanLines_found_iff toUInt fs.loaderSym SymName.dataEnd
  simp only [SymName.str] at hM hT hS hE
  refine ⟨?_, ?_, ?_, ?_, ?_⟩
  · constructor
    · rintro ⟨s, hs⟩ k
      exact (scanLines_found_iff toUInt fs.loaderSym k).1
        (((resolveSymbols_ok_iff toUInt fs.loaderSym s).1 hs).2 k)
    · intro h
      exact ⟨scanLines toUInt fs.loaderSym,
        (resolveSymbols_ok_iff toUInt fs.loaderSym _).2
          ⟨rfl, fun k => (scanLines_found_iff toUInt fs.loaderSym k).2 (h k)⟩⟩
  · rw [resolveSymbols_error_iff, ← hM]
    simp
  · rw [resolveSymbols_error_iff, ← hM, ← hT, ← hS, ← hE]
    simp
  · intro e he
    refine ⟨?_, ?_⟩
    · rcases (resolveSymbols_error_iff toUInt fs.loaderSym e).1 he with h | h
      · exact Or.inl h.2
      · exact Or.inr h.2.2
    · unfold PatchMaker.insert
      rw [he]
  · intro s hs
    unfold PatchMaker.insert
    rw [hs]

/-- C8 (instances): a listing without `__data_end` fails with the section status and one
with only a non-converting `LoaderMain` line fails with the entry-point status, the files
being untouched in both cases. -/
theorem C8_resolution_failure_witness :
    resolveSymbols hexToUInt (exampleFiles listingNoDataEnd).loaderSym
        = Except.error "Parsing Loader sections failed"
    ∧ ((("Parsing Loader sections failed" : String) = "LoaderMain not found"
          ∨ ("Parsing Loader sections failed" : String) = "Parsing Loader sections failed")
        ∧ PatchMaker.insert hexToUInt (fun _ => 0) (PatchMaker.setPath exampleHeaderB)
            (exampleFiles listingNoDataEnd)
          = (exampleFiles listingNoDataEnd,
              [Signal.updateStatus "Inserting...",
                Signal.updateStatus "Parsing Loader sections failed", Signal.setBusy false]))
    ∧ resolveSymbols hexToUInt ["zz T LoaderMain", "00101100 T __text_end"]
        = Except.error "LoaderMain not found" :=
  ⟨by decide,
    (C8_resolution_failure hexToUInt (fun _ => 0) (PatchMaker.setPath exampleHeaderB)
      (exampleFiles listingNoDataEnd)).2.2.2.1 "Parsing Loader sections failed" (by decide),
    by decide⟩

/-- C9 (as stated, refuted): a listing that lacks only `__data_end` and a listing that lacks
only `__text_end` fail with one and the same status, "Parsing Loader sections failed", and
`insert` emits the same signals for both: the error does not name the missing symbol. -/
theorem C9_missing_name_counterexample :
    missingNames hexToUInt listingNoDataEnd = [SymName.dataEnd]
    ∧ missingNames hexToUInt listingNoTextEnd = [SymName.textEnd]
    ∧ resolveSymbols hexToUInt listingNoDataEnd = Except.error "Parsing Loader sections failed"
    ∧ resolveSymbols hexToUInt listingNoTextEnd = Except.error "Parsing Loader sections failed"
    ∧ (PatchMaker.insert hexToUInt (fun _ => 0) (PatchMaker.setPath exampleHeaderB)
          (exampleFiles listingNoDataEnd)).2
        = (PatchMaker.insert hexToUInt (fun _ => 0) (PatchMaker.setPath exampleHeaderB)
          (exampleFiles listingNoTextEnd)).2
    ∧ ¬ ∃ names : String → List SymName, ∀ lines e,
          resolveSymbols hexToUInt lines = Except.error e →
            names e = missingNames hexToUInt lines := by
  refine ⟨by decide, by decide, by decide, by decide, by decide, ?_⟩
  rintro ⟨names, h⟩
  have h1 := h listingNoDataEnd "Parsing Loader sections failed" (by decide)
  have h2 := h listingNoTextEnd "Parsing Loader sections failed" (by decide)
  rw [h1] at h2
  revert h2
  decide

/-- C9 (amended): on a listing in which `LoaderMain`, `__text_end` and `__data_start` are
matched and `__data_end` is not, the only missing name is `__data_end`, resolution fails
with the section status "Parsing Loader sections failed", and `insert` emits that status
and `setBusy(false)` and changes no file. -/
theorem C9_missing_data_end (toUInt : String → Option Nat) (junk : Nat → Nat)
    (m : PatchMaker) (fs : ProjectFiles)
    (hM : ∃ line ∈ fs.loaderSym, lineMatches toUInt "LoaderMain" line)
    (hT : ∃ line ∈ fs.loaderSym, lineMatches toUInt "__text_end" line)
    (hS : ∃ line ∈ fs.loaderSym, lineMatches toUInt "__data_start" line)
    (hE : ¬ ∃ line ∈ fs.loaderSym, lineMatches toUInt "__data_end" line) :
    missingNames toUInt fs.loaderSym = [SymName.dataEnd]
    ∧ resolveSymbols toUInt fs.loaderSym = Except.error "Parsing Loader sections failed"
    ∧ PatchMaker.insert toUInt junk m fs
        = (fs, [Signal.updateStatus "Inserting...",
            Signal.updateStatus "Parsing Loader sections failed", Signal.setBusy false]) := by
  have hM2 := (scanLines_found_iff toUInt fs.loaderSym SymName.loaderMain).2 hM
  have hE2 := scanLines_found_iff toUInt fs.loaderSym SymName.dataEnd
  simp only [SymName.str] at hE2
  have hr : resolveSymbols toUInt fs.loaderSym
      = Except.error "Parsing Loader sections failed" := by
    rw [resolveSymbols_error_iff]
    refine Or.inr ⟨hM2, Or.inr (Or.inr ?_), rfl⟩
    cases hv : (scanLines toUInt fs.loaderSym).found SymName.dataEnd with
    | false => rfl
    | true => exact absurd (hE2.1 hv) hE
  refine ⟨?_, hr, ?_⟩
  · have m1 := (firstMatch_isSome_iff toUInt "LoaderMain" fs.loaderSym).2 hM
    have m2 := (firstMatch_isSome_iff toUInt "__text_end" fs.loaderSym).2 hT
    have m3 := (firstMatch_isSome_iff toUInt "__data_start" fs.loaderSym).2 hS
    have m4 : (firstMatch toUInt "__data_end" fs.loaderSym).isNone = true := by
      cases hv : firstMatch toUInt "__data_end" fs.loaderSym with
      | none => rfl
      | some a =>
        exact absurd ((firstMatch_isSome_iff toUInt "__data_end" fs.loaderSym).1
          (by rw [hv]; rfl)) hE
    have n1 : (firstMatch toUInt "LoaderMain" fs.loaderSym).isNone = false := by
      cases hv : firstMatch toUInt "LoaderMain" fs.loaderSym <;> simp [hv] at m1 ⊢
    have n2 : (firstMatch toUInt "__text_end" fs.loaderSym).isNone = false := by
      cases hv : firstMatch toUInt "__text_end" fs.loaderSym <;> simp [hv] at m2 ⊢
    have n3 : (firstMatch toUInt "__data_start" fs.loaderSym).isNone = false := by
      cases hv : firstMatch toUInt "__data_start" fs.loaderSym <;> simp [hv] at m3 ⊢
    simp [missingNames, List.filter, SymName.str, n1, n2, n3, m4]
  · unfold PatchMaker.insert
    rw [hr]

/-- C9 (amended, instance): the listing without `__data_end`. -/
theorem C9_missing_data_end_witness :
    missingNames hexToUInt (exampleFiles listingNoDataEnd).loaderSym = [SymName.dataEnd]
    ∧ resolveSymbols hexToUInt (exampleFiles listingNoDataEnd).loaderSym
        = Except.error "Parsing Loader sections failed"
    ∧ PatchMaker.insert hexToUInt (fun _ => 0) (PatchMaker.setPath exampleHeaderB)
          (exampleFiles listingNoDataEnd)
        = (exampleFiles listingNoDataEnd, [Signal.updateStatus "Inserting...",
            Signal.updateStatus "Parsing Loader sections failed", Signal.setBusy false]) :=
  C9_missing_data_end hexToUInt (fun _ => 0) (PatchMaker.setPath exampleHeaderB)
    (exampleFiles listingNoDataEnd)
    ⟨"00101000 T LoaderMain", by decide, by decide⟩
    ⟨"00101100 T __text_end", by decide, by decide⟩
    ⟨"00123000 D __data_start", by decide, by decide⟩
    (by decide)

theorem LoaderSyms.eq_of_components (s t : LoaderSyms) (ha : ∀ k, s.addr k = t.addr k)
    (hf : ∀ k, s.found k = t.found k) : s = t := by
  have a1 := ha SymName.loaderMain
  have a2 := ha SymName.textEnd
  have a3 := ha SymName.dataStart
  have a4 := ha SymName.dataEnd
  have f1 := hf SymName.loaderMain
  have f2 := hf SymName.textEnd
  have f3 := hf SymName.dataStart
  have f4 := hf SymName.dataEnd
  cases s
  cases t
  simp only [LoaderSyms.addr, LoaderSyms.found] at a1 a2 a3 a4 f1 f2 f3 f4
  simp [a1, a2, a3, a4, f1, f2, f3, f4]

/-- Whether a name is found does not depend on the order of the lines. -/
theorem scanLines_found_perm (toUInt : String → Option Nat) (lines lines' : List String)
    (hp : lines.Perm lines') (k : SymName) :
    (scanLines toUInt lines').found k = (scanLines toUInt lines).found k := by
  have h1 := scanLines_found_iff toUInt lines k
  have h2 := scanLines_found_iff toUInt lines' k
  have h3 : (∃ line ∈ lines', lineMatches toUInt k.str line) ↔
      ∃ line ∈ lines, lineMatches toUInt k.str line :=
    ⟨fun ⟨l, hl, hm⟩ => ⟨l, hp.mem_iff.2 hl, hm⟩, fun ⟨l, hl, hm⟩ => ⟨l, hp.mem_iff.1 hl, hm⟩⟩
  rw [← h1, ← h2] at h3
  cases hv : (scanLines toUInt lines').found k <;>
    cases hw : (scanLines toUInt lines).found k <;> simp_all

theorem firstMatch_mem (toUInt : String → Option Nat) (name : String) (lines : List String)
    (a : Nat) (h : firstMatch toUInt name lines = some a) :
    ∃ line ∈ lines, lineValue toUInt name line = some a := by
  unfold firstMatch at h
  obtain ⟨pre, line, post, hl, hv, -⟩ := List.findSome?_eq_some_iff.1 h
  exact ⟨line, by rw [hl]; simp, hv⟩

/-- C10 (as stated, refuted): exchanging the two `LoaderMain` lines of a listing that
resolves all four names changes the resolved `LoaderMain` address from `0x00101000` to
`0x00102000`. -/
theorem C10_order_counterexample :
    listingTwice.Perm listingTwiceSwapped
    ∧ resolveSymbols hexToUInt listingTwice = Except.ok (scanLines hexToUInt listingTwice)
    ∧ resolveSymbols hexToUInt listingTwiceSwapped
        = Except.ok (scanLines hexToUInt listingTwiceSwapped)
    ∧ (scanLines hexToUInt listingTwice).loaderMainAddr = 0x00101000
    ∧ (scanLines hexToUInt listingTwiceSwapped).loaderMainAddr = 0x00102000
    ∧ resolveSymbols hexToUInt listingTwiceSwapped ≠ resolveSymbols hexToUInt listingTwice :=
  ⟨List.Perm.swap _ _ _, by decide, by decide, by decide, by decide, by decide⟩

/-- C10 (amended): for every permutation of the lines of a listing, each name is found or
not found as before and resolution succeeds or fails, with the same failure status, as
before; when moreover all the lines that match a name carry the same value for it, the whole
outcome, the four addresses included, is the same. -/
theorem C10_order_independence (toUInt : String → Option Nat) (lines lines' : List String)
    (hp : lines.Perm lines') :
    (∀ k, (scanLines toUInt lines').found k = (scanLines toUInt lines).found k)
    ∧ (∀ e, resolveSymbols toUInt lines' = Except.error e ↔
        resolveSymbols toUInt lines = Except.error e)
    ∧ ((∃ s, resolveSymbols toUInt lines' = Except.ok s) ↔
        ∃ s, resolveSymbols toUInt lines = Except.ok s)
    ∧ ((∀ k : SymName, ∀ l1 ∈ lines, ∀ l2 ∈ lines,
          lineValue toUInt k.str l1 ≠ none → lineValue toUInt k.str l2 ≠ none →
            lineValue toUInt k.str l1 = lineValue toUInt k.str l2) →
        resolveSymbols toUInt lines' = resolveSymbols toUInt lines) := by
  have hfound := scanLines_found_perm toUInt lines lines' hp
  have herr : ∀ e, resolveSymbols toUInt lines' = Except.error e ↔
      resolveSymbols toUInt lines = Except.error e := by
    intro e
    rw [resolveSymbols_error_iff, resolveSymbols_error_iff]
    simp only [hfound]
  have hok : (∃ s, resolveSymbols toUInt lines' = Except.ok s) ↔
      ∃ s, resolveSymbols toUInt lines = Except.ok s := by
    simp only [resolveSymbols_ok_iff, hfound]
    constructor
    · rintro ⟨_, -, h⟩
      exact ⟨_, rfl, h⟩
    · rintro ⟨_, -, h⟩
      exact ⟨_, rfl, h⟩
  refine ⟨hfound, herr, hok, ?_⟩
  intro hcons
  cases hr : resolveSymbols toUInt lines with
  | error e => exact (herr e).2 hr
  | ok s =>
    obtain ⟨hs, hall⟩ := (resolveSymbols_ok_iff toUInt lines s).1 hr
    rw [resolveSymbols_ok_iff]
    refine ⟨?_, fun k => by rw [hfound]; exact hall k⟩
    rw [hs]
    apply LoaderSyms.eq_of_components
    · intro k
      have hk := hall k
      rw [scanLines_found] at hk
      obtain ⟨a, ha⟩ := Option.isSome_iff_exists.1 hk
      have hk' := hall k
      rw [← hfound k, scanLines_found] at hk'
      obtain ⟨b, hb⟩ := Option.isSome_iff_exists.1 hk'
      rw [scanLines_addr toUInt lines k a ha, scanLines_addr toUInt lines' k b hb]
      obtain ⟨l1, hl1, hv1⟩ := firstMatch_mem toUInt k.str lines a ha
      obtain ⟨l2, hl2, hv2⟩ := firstMatch_mem toUInt k.str lines' b hb
      have := hcons k l1 hl1 l2 (hp.mem_iff.2 hl2) (by rw [hv1]; simp) (by rw [hv2]; simp)
      rw [hv1, hv2] at this
      exact Option.some.inj this
    · intro k
      exact (hfound k).symm

/-- C10 (amended, instance): a listing with each name once, and a reordering of it. -/
theorem C10_order_independence_witness :
    listingFull.Perm listingFullShuffled
    ∧ resolveSymbols hexToUInt listingFull = Except.ok (scanLines hexToUInt listingFull)
    ∧ (scanLines hexToUInt listingFull).loaderDataEnd = 0x00123100
    ∧ resolveSymbols hexToUInt listingFullShuffled = resolveSymbols hexToUInt listingFull :=
  ⟨by decide, by decide, by decide,
    (C10_order_independence hexToUInt listingFull listingFullShuffled (by decide)).2.2.2
      (by intro k; cases k <;> decide)⟩

/-! ## File operations -/

theorem writeData_nil (f : ExternalFile) : f.writeData [] = f := rfl

theorem writeData_pos (f : ExternalFile) (bytes : List Nat) :
    (f.writeData bytes).pos = f.pos + bytes.length := by
  cases bytes <;> rfl

theorem writeData_length (f : ExternalFile) (bytes : List Nat) (hb : bytes ≠ []) :
    (f.writeData bytes).data.length = max f.data.length (f.pos + bytes.length) := by
  cases bytes with
  | nil => exact absurd rfl hb
  | cons b bs =>
    simp only [ExternalFile.writeData, List.length_append, List.length_take, List.length_drop,
      List.length_replicate, List.length_cons]
    omega

theorem writeData_length_le (f : ExternalFile) (bytes : List Nat) :
    f.data.length ≤ (f.writeData bytes).data.length := by
  cases bytes with
  | nil => exact Nat.le_refl _
  | cons b bs =>
    rw [writeData_length f (b :: bs) (by simp)]
    exact Nat.le_max_left _ _

theorem seek_writeData_length_le (f : ExternalFile) (q : Nat) (bytes : List Nat) :
    f.data.length ≤ ((f.seek q).writeData bytes).data.length :=
  writeData_length_le (f.seek q) bytes

/-- A write puts its bytes at the position. -/
theorem writeData_inside (f : ExternalFile) (bytes : List Nat) (p : Nat)
    (h1 : f.pos ≤ p) (h2 : p < f.pos + bytes.length) :
    (f.writeData bytes).data[p]? = bytes[p - f.pos]? := by
  cases bytes with
  | nil => simp at h2; omega
  | cons b bs =>
    simp only [ExternalFile.writeData]
    have hl : (List.take f.pos (f.data ++ List.replicate (f.pos - f.data.length) 0)).length
        = f.pos := by
      simp only [List.length_take, List.length_append, List.length_replicate]; omega
    rw [List.getElem?_append_left (by
      simp only [List.length_append, hl]; exact h2)]
    rw [List.getElem?_append_right (by rw [hl]; exact h1), hl]

/-- A write leaves the bytes of the file outside its range as they were. -/
theorem writeData_outside (f : ExternalFile) (bytes : List Nat) (p : Nat)
    (h : (p < f.pos ∧ p < f.data.length) ∨ f.pos + bytes.length ≤ p) :
    (f.writeData bytes).data[p]? = f.data[p]? := by
  cases bytes with
  | nil => rfl
  | cons b bs =>
    simp only [ExternalFile.writeData]
    have hl : (List.take f.pos (f.data ++ List.replicate (f.pos - f.data.length) 0)).length
        = f.pos := by
      simp only [List.length_take, List.length_append, List.length_replicate]; omega
    rcases h with ⟨h1, h2⟩ | h
    · rw [List.append_assoc, List.getElem?_append_left (by rw [hl]; exact h1),
        List.getElem?_take_of_lt h1, List.getElem?_append_left h2]
    · rw [List.getElem?_append_right (by
        simp only [List.length_append, hl]; exact h)]
      simp only [List.length_append, hl, List.getElem?_drop]
      have e : f.pos + (b :: bs).length + (p - (f.pos + (b :: bs).length)) = p := by omega
      rw [e]
      by_cases hp : p < f.data.length
      · rw [List.getElem?_append_left hp]
      · have h3 : (f.data ++ List.replicate (f.pos - f.data.length) 0).length ≤ p := by
          simp only [List.length_append, List.length_replicate]
          simp only [List.length_cons] at h
          omega
        rw [List.getElem?_eq_none h3, List.getElem?_eq_none (by omega)]

theorem clearLoop_pos (fuel : Nat) (f : ExternalFile) (t : Nat) (hf : t - f.pos ≤ fuel) :
    (clearLoop fuel f t).pos = max f.pos t := by
  induction fuel generalizing f with
  | zero =>
    simp only [clearLoop]
    omega
  | succ n ih =>
    simp only [clearLoop]
    split
    · rename_i hlt
      have hp : (f.write8 0).pos = f.pos + 1 := writeData_pos f [0]
      rw [ih (f.write8 0) (by rw [hp]; omega), hp]
      omega
    · omega

theorem clearLoop_length_le (fuel : Nat) (f : ExternalFile) (t : Nat) :
    f.data.length ≤ (clearLoop fuel f t).data.length := by
  induction fuel generalizing f with
  | zero => exact Nat.le_refl _
  | succ n ih =>
    simp only [clearLoop]
    split
    · exact Nat.le_trans (writeData_length_le f [0]) (ih (f.write8 0))
    · exact Nat.le_refl _

theorem clearLoop_length (fuel : Nat) (f : ExternalFile) (t : Nat) (hf : t - f.pos ≤ fuel) :
    (clearLoop fuel f t).data.length = if f.pos < t then max f.data.length t else f.data.length := by
  induction fuel generalizing f with
  | zero =>
    simp only [clearLoop]
    rw [if_neg (by omega)]
  | succ n ih =>
    simp only [clearLoop]
    split
    · rename_i hlt
      have hp : (f.write8 0).pos = f.pos + 1 := writeData_pos f [0]
      have hl : (f.write8 0).data.length = max f.data.length (f.pos + 1) :=
        writeData_length f [0] (by simp)
      rw [ih (f.write8 0) (by rw [hp]; omega), hp, hl]
      split <;> omega
    · rfl

/-- The clearing loop leaves the bytes of the file outside its range as they were. -/
theorem clearLoop_outside (fuel : Nat) (f : ExternalFile) (t p : Nat)
    (h : (p < f.pos ∧ p < f.data.length) ∨ t ≤ p) :
    (clearLoop fuel f t).data[p]? = f.data[p]? := by
  induction fuel generalizing f with
  | zero => rfl
  | succ n ih =>
    simp only [clearLoop]
    split
    · rename_i hlt
      have hp : (f.write8 0).pos = f.pos + 1 := writeData_pos f [0]
      have hle := writeData_length_le f [0]
      rw [ih (f.write8 0) (by
        rw [hp]
        rcases h with ⟨h1, h2⟩ | h1
        · exact Or.inl ⟨by omega, Nat.lt_of_lt_of_le h2 hle⟩
        · exact Or.inr h1)]
      apply writeData_outside
      rcases h with ⟨h1, h2⟩ | h1
      · exact Or.inl ⟨h1, h2⟩
      · exact Or.inr (by simp only [List.length_cons, List.length_nil]; omega)
    · rfl

/-- The clearing loop leaves zero at every offset from the position up to the target. -/
theorem clearLoop_inside (fuel : Nat) (f : ExternalFile) (t p : Nat) (hf : t - f.pos ≤ fuel)
    (h1 : f.pos ≤ p) (h2 : p < t) : (clearLoop fuel f t).data[p]? = some 0 := by
  induction fuel generalizing f with
  | zero => omega
  | succ n ih =>
    simp only [clearLoop]
    rw [if_pos (by omega)]
    have hp : (f.write8 0).pos = f.pos + 1 := writeData_pos f [0]
    by_cases hpp : p = f.pos
    · subst hpp
      have hw : (f.write8 0).data[f.pos]? = some 0 := by
        have := writeData_inside f [0] f.pos (Nat.le_refl _) (by simp)
        simpa using this
      have hlen : f.pos < (f.write8 0).data.length := by
        rcases List.getElem?_eq_some.1 hw with ⟨hh, -⟩
        exact hh
      rw [clearLoop_outside n (f.write8 0) t f.pos (Or.inl ⟨by omega, hlen⟩)]
      exact hw
    · exact ih (f.write8 0) (by rw [hp]; omega) (by rw [hp]; omega)

theorem clearLoop_done (fuel : Nat) (f : ExternalFile) (t : Nat) (h : t ≤ f.pos) :
    clearLoop fuel f t = f := by
  cases fuel with
  | zero => rfl
  | succ n => simp only [clearLoop]; rw [if_neg (by omega)]

theorem resize_length (f : ExternalFile) (n : Nat) :
    (f.resize n).data.length = max f.data.length n := by
  simp only [ExternalFile.resize, List.length_append, List.length_replicate]
  omega

theorem resize_length_le (f : ExternalFile) (n : Nat) :
    f.data.length ≤ (f.resize n).data.length := by
  rw [resize_length]
  exact Nat.le_max_left _ _

theorem resize_get (f : ExternalFile) (n p : Nat) (h2 : p < f.data.length) :
    (f.resize n).data[p]? = f.data[p]? := by
  simp only [ExternalFile.resize]
  rw [List.getElem?_append_left h2]

theorem readData_length (f : ExternalFile) (junk : Nat → Nat) (len : Nat) :
    (f.readData junk len).1.length = len := by
  simp only [ExternalFile.readData, List.length_append, List.length_take, List.length_drop,
    List.length_map, List.length_range]
  omega

/-- A read that the file can serve in full returns the bytes of the file. -/
theorem readData_get (f : ExternalFile) (junk : Nat → Nat) (len i : Nat) (hi : i < len)
    (hl : f.pos + len ≤ f.data.length) :
    (f.readData junk len).1[i]? = f.data[f.pos + i]? := by
  simp only [ExternalFile.readData]
  rw [List.getElem?_append_left (by
    simp only [List.length_take, List.length_drop]; omega),
    List.getElem?_take_of_lt hi, List.getElem?_drop]

theorem clearTo_pos (f : ExternalFile) (t : Nat) : (clearTo f t).pos = max f.pos t :=
  clearLoop_pos _ f t (Nat.le_refl _)

theorem clearTo_length (f : ExternalFile) (t : Nat) :
    (clearTo f t).data.length = if f.pos < t then max f.data.length t else f.data.length :=
  clearLoop_length _ f t (Nat.le_refl _)

theorem clearTo_length_le (f : ExternalFile) (t : Nat) :
    f.data.length ≤ (clearTo f t).data.length :=
  clearLoop_length_le _ f t

theorem clearTo_inside (f : ExternalFile) (t p : Nat) (h1 : f.pos ≤ p) (h2 : p < t) :
    (clearTo f t).data[p]? = some 0 :=
  clearLoop_inside _ f t p (Nat.le_refl _) h1 h2

theorem clearTo_outside (f : ExternalFile) (t p : Nat)
    (h : (p < f.pos ∧ p < f.data.length) ∨ t ≤ p) :
    (clearTo f t).data[p]? = f.data[p]? :=
  clearLoop_outside _ f t p h

theorem clearTo_done (f : ExternalFile) (t : Nat) (h : t ≤ f.pos) : clearTo f t = f :=
  clearLoop_done _ f t h

theorem sub32_eq (a b : Nat) (hb : b ≤ a) (ha : a < 2 ^ 32) : sub32 a b = a - b := by
  simp only [sub32, u32]
  norm_num at ha
  omega

/-- The three loader stages on any code file: text at `q`, zeros up to `d`, data at `d`. -/
theorem loader_writes (f1 : ExternalFile) (q d : Nat) (text dat : List Nat)
    (hq : q + text.length ≤ d) :
    (∀ p, q ≤ p → p < q + text.length →
      (((clearTo ((f1.seek q).writeData text) d).seek d).writeData dat).data[p]?
        = text[p - q]?)
    ∧ (∀ p, q + text.length ≤ p → p < d →
      (((clearTo ((f1.seek q).writeData text) d).seek d).writeData dat).data[p]? = some 0)
    ∧ (∀ p, d ≤ p → p < d + dat.length →
      (((clearTo ((f1.seek q).writeData text) d).seek d).writeData dat).data[p]?
        = dat[p - d]?)
    ∧ (∀ p, p < q → p < f1.data.length →
      (((clearTo ((f1.seek q).writeData text) d).seek d).writeData dat).data[p]?
        = f1.data[p]?)
    ∧ (d + dat.length ≤ f1.data.length →
      (((clearTo ((f1.seek q).writeData text) d).seek d).writeData dat).data.length
        = f1.data.length)
    ∧ f1.data.length
        ≤ (((clearTo ((f1.seek q).writeData text) d).seek d).writeData dat).data.length := by
  generalize h2 : (f1.seek q).writeData text = f2
  generalize h3 : clearTo f2 d = f3
  have p2 : f2.pos = q + text.length := by rw [← h2, writeData_pos]; rfl
  have l2 : f1.data.length ≤ f2.data.length := by
    rw [← h2]; exact writeData_length_le (f1.seek q) text
  have p3 : f3.pos = d := by rw [← h3, clearTo_pos, p2]; omega
  have l3 : f2.data.length ≤ f3.data.length := by rw [← h3]; exact clearTo_length_le f2 d
  have l4 : f3.data.length ≤ ((f3.seek d).writeData dat).data.length :=
    writeData_length_le (f3.seek d) dat
  refine ⟨?_, ?_, ?_, ?_, ?_, ?_⟩
  · intro p hp1 hp2
    have ht : text ≠ [] := by
      intro h; rw [h] at hp2; simp at hp2; omega
    have hl2 : p < f2.data.length := by
      rw [← h2, writeData_length _ _ ht]
      exact Nat.lt_of_lt_of_le hp2 (Nat.le_max_right _ _)
    rw [writeData_outside (f3.seek d) dat p (Or.inl ⟨by show p < d; omega,
      by show p < f3.data.length; omega⟩)]
    show f3.data[p]? = _
    rw [← h3, clearTo_outside f2 d p (Or.inl ⟨by omega, hl2⟩), ← h2]
    exact writeData_inside (f1.seek q) text p hp1 hp2
  · intro p hp1 hp2
    have hz : f3.data[p]? = some 0 := by
      rw [← h3]; exact clearTo_inside f2 d p (by omega) hp2
    have hl3 : p < f3.data.length := by
      rcases List.getElem?_eq_some.1 hz with ⟨hh, -⟩
      exact hh
    rw [writeData_outside (f3.seek d) dat p (Or.inl ⟨hp2, hl3⟩)]
    exact hz
  · intro p hp1 hp2
    exact writeData_inside (f3.seek d) dat p hp1 hp2
  · intro p hp1 hp2
    rw [writeData_outside (f3.seek d) dat p (Or.inl ⟨by show p < d; omega,
      by show p < f3.data.length; omega⟩)]
    show f3.data[p]? = _
    rw [← h3, clearTo_outside f2 d p (Or.inl ⟨by omega, by omega⟩), ← h2]
    exact writeData_outside (f1.seek q) text p (Or.inl ⟨hp1, hp2⟩)
  · intro hd
    have e2 : f2.data.length = f1.data.length := by
      cases text with
      | nil => rw [← h2]; rfl
      | cons b bs =>
        rw [← h2, writeData_length _ _ (by simp)]
        show max f1.data.length (q + (b :: bs).length) = _
        omega
    have e3 : f3.data.length = f1.data.length := by
      rw [← h3, clearTo_length, e2]
      split <;> omega
    cases dat with
    | nil => exact e3
    | cons b bs =>
      rw [writeData_length _ _ (by simp)]
      show max f3.data.length (d + (b :: bs).length) = _
      omega
  · omega

/-- The state of the code file when the loader text is about to be written. -/
theorem splice_stages (junk : Nat → Nat) (m : PatchMaker) (s : LoaderSyms)
    (codeBin loaderBin : List Nat) :
    PatchMaker.splice junk m s codeBin loaderBin
      = (PatchMaker.spliceData junk m s
          (PatchMaker.splicePadding s
            (PatchMaker.spliceText junk m s (PatchMaker.spliceBss m s codeBin) loaderBin))
          loaderBin).data :=
  rfl

/-- With the symbols in order the loader stages are three plain writes. -/
theorem loader_stages_eq (junk : Nat → Nat) (m : PatchMaker) (s : LoaderSyms)
    (f1 : ExternalFile) (loaderBin : List Nat)
    (hO : 0x100000 ≤ m.m_loaderOffset) (hOT : m.m_loaderOffset ≤ s.loaderTextEnd)
    (hTD : s.loaderTextEnd ≤ s.loaderDataStart) (hDE : s.loaderDataStart ≤ s.loaderDataEnd)
    (hE : s.loaderDataEnd < 2 ^ 32) :
    PatchMaker.spliceData junk m s
        (PatchMaker.splicePadding s (PatchMaker.spliceText junk m s f1 loaderBin)) loaderBin
      = ((clearTo ((f1.seek (m.m_loaderOffset - 0x100000)).writeData
            (({ data := loaderBin, pos := 0 } : ExternalFile).readData junk
              (s.loaderTextEnd - m.m_loaderOffset)).1)
          (s.loaderDataStart - 0x100000)).seek (s.loaderDataStart - 0x100000)).writeData
          (({ data := loaderBin, pos := s.loaderDataStart - m.m_loaderOffset }
              : ExternalFile).readData junk (s.loaderDataEnd - s.loaderDataStart)).1 := by
  simp only [PatchMaker.spliceData, PatchMaker.splicePadding, PatchMaker.spliceText]
  rw [sub32_eq s.loaderTextEnd m.m_loaderOffset hOT (by omega),
    sub32_eq m.m_loaderOffset 0x100000 hO (by omega),
    sub32_eq s.loaderDataStart 0x100000 (by omega) (by omega),
    sub32_eq s.loaderDataEnd s.loaderDataStart hDE hE,
    sub32_eq s.loaderDataStart m.m_loaderOffset (by omega) (by omega)]
  rfl

/-- The bss stage: file length, position and content after the clearing loop. -/
theorem spliceBss_props (m : PatchMaker) (s : LoaderSyms) (codeBin : List Nat) :
    (PatchMaker.spliceBss m s codeBin).pos
        = max (u32 codeBin.length) (sub32 m.m_newCodeOffset 0x100000)
    ∧ (PatchMaker.spliceBss m s codeBin).data.length
        = (if u32 codeBin.length < sub32 m.m_newCodeOffset 0x100000 then
            max (max codeBin.length (sub32 s.loaderDataEnd 0x100000))
              (sub32 m.m_newCodeOffset 0x100000)
          else max codeBin.length (sub32 s.loaderDataEnd 0x100000))
    ∧ (∀ p, u32 codeBin.length ≤ p → p < sub32 m.m_newCodeOffset 0x100000 →
        (PatchMaker.spliceBss m s codeBin).data[p]? = some 0)
    ∧ (∀ p, p < u32 codeBin.length → p < sub32 s.loaderDataEnd 0x100000 →
        (PatchMaker.spliceBss m s codeBin).data[p]? = codeBin[p]?) := by
  have hr : (({ data := codeBin, pos := 0 } : ExternalFile).resize
      (sub32 s.loaderDataEnd 0x100000)).data.length
      = max codeBin.length (sub32 s.loaderDataEnd 0x100000) :=
    resize_length ({ data := codeBin, pos := 0 } : ExternalFile)
      (sub32 s.loaderDataEnd 0x100000)
  refine ⟨?_, ?_, ?_, ?_⟩
  · simp only [PatchMaker.spliceBss, clearTo_pos]
    rfl
  · simp only [PatchMaker.spliceBss, clearTo_length]
    show (if u32 codeBin.length < _ then max (ExternalFile.resize _ _).data.length _
      else (ExternalFile.resize _ _).data.length) = _
    rw [hr]
  · intro p h1 h2
    simp only [PatchMaker.spliceBss]
    exact clearTo_inside _ _ p h1 h2
  · intro p h1 h2
    simp only [PatchMaker.spliceBss]
    rw [clearTo_outside _ _ p (Or.inl ⟨h1, by
      show p < (ExternalFile.resize _ _).data.length
      rw [hr]; exact Nat.lt_of_lt_of_le h2 (Nat.le_max_right _ _)⟩)]
    show (ExternalFile.resize _ _).data[p]? = _
    have hlt : p < codeBin.length := by
      have : u32 codeBin.length ≤ codeBin.length := by
        simp only [u32]; exact Nat.mod_le _ _
      omega
    exact resize_get _ _ p hlt

theorem insert_ok (toUInt : String → Option Nat) (junk : Nat → Nat) (m : PatchMaker)
    (fs : ProjectFiles) (s : LoaderSyms)
    (hr : resolveSymbols toUInt fs.loaderSym = Except.ok s) :
    PatchMaker.insert toUInt junk m fs
      = ({ fs with
            codeBin := PatchMaker.splice junk m s fs.codeBin fs.loaderBin
            exheaderBin :=
              PatchMaker.fixExheader fs.exheaderBin (sub32 s.loaderDataEnd m.m_newCodeOffset) },
          [Signal.updateStatus "Inserting...", Signal.updateStatus "Fixing Exheader",
            Signal.setBusy false, Signal.updateStatus "All done"]) := by
  unfold PatchMaker.insert
  rw [hr]

/-- The loader stages never shorten the code file. -/
theorem loader_stages_length_le (junk : Nat → Nat) (m : PatchMaker) (s : LoaderSyms)
    (f1 : ExternalFile) (loaderBin : List Nat) :
    f1.data.length
      ≤ (PatchMaker.spliceData junk m s
          (PatchMaker.splicePadding s (PatchMaker.spliceText junk m s f1 loaderBin))
          loaderBin).data.length := by
  have h1 : f1.data.length ≤ (PatchMaker.spliceText junk m s f1 loaderBin).data.length := by
    simp only [PatchMaker.spliceText]
    exact seek_writeData_length_le f1 _ _
  have h2 : (PatchMaker.spliceText junk m s f1 loaderBin).data.length
      ≤ (PatchMaker.splicePadding s
          (PatchMaker.spliceText junk m s f1 loaderBin)).data.length := by
    simp only [PatchMaker.splicePadding]
    exact clearTo_length_le _ _
  have h3 : (PatchMaker.splicePadding s
        (PatchMaker.spliceText junk m s f1 loaderBin)).data.length
      ≤ (PatchMaker.spliceData junk m s
          (PatchMaker.splicePadding s (PatchMaker.spliceText junk m s f1 loaderBin))
          loaderBin).data.length := by
    simp only [PatchMaker.spliceData]
    exact seek_writeData_length_le _ _ _
  exact Nat.le_trans h1 (Nat.le_trans h2 h3)

/-- With the symbols in order: what the loader stages leave in the code file. -/
theorem loader_stages_props (junk : Nat → Nat) (m : PatchMaker) (s : LoaderSyms)
    (f1 : ExternalFile) (loaderBin : List Nat)
    (hO : 0x100000 ≤ m.m_loaderOffset) (hOT : m.m_loaderOffset ≤ s.loaderTextEnd)
    (hTD : s.loaderTextEnd ≤ s.loaderDataStart) (hDE : s.loaderDataStart ≤ s.loaderDataEnd)
    (hE : s.loaderDataEnd < 2 ^ 32) :
    (∀ i, i < s.loaderTextEnd - m.m_loaderOffset →
      (PatchMaker.spliceData junk m s
          (PatchMaker.splicePadding s (PatchMaker.spliceText junk m s f1 loaderBin))
          loaderBin).data[m.m_loaderOffset - 0x100000 + i]?
        = (({ data := loaderBin, pos := 0 } : ExternalFile).readData junk
            (s.loaderTextEnd - m.m_loaderOffset)).1[i]?)
    ∧ (∀ p, s.loaderTextEnd - 0x100000 ≤ p → p < s.loaderDataStart - 0x100000 →
      (PatchMaker.spliceData junk m s
          (PatchMaker.splicePadding s (PatchMaker.spliceText junk m s f1 loaderBin))
          loaderBin).data[p]? = some 0)
    ∧ (∀ i, i < s.loaderDataEnd - s.loaderDataStart →
      (PatchMaker.spliceData junk m s
          (PatchMaker.splicePadding s (PatchMaker.spliceText junk m s f1 loaderBin))
          loaderBin).data[s.loaderDataStart - 0x100000 + i]?
        = (({ data := loaderBin, pos := s.loaderDataStart - m.m_loaderOffset }
              : ExternalFile).readData junk (s.loaderDataEnd - s.loaderDataStart)).1[i]?)
    ∧ (∀ p, p < m.m_loaderOffset - 0x100000 → p < f1.data.length →
      (PatchMaker.spliceData junk m s
          (PatchMaker.splicePadding s (PatchMaker.spliceText junk m s f1 loaderBin))
          loaderBin).data[p]? = f1.data[p]?)
    ∧ (s.loaderDataEnd - 0x100000 ≤ f1.data.length →
      (PatchMaker.spliceData junk m s
          (PatchMaker.splicePadding s (PatchMaker.spliceText junk m s f1 loaderBin))
          loaderBin).data.length = f1.data.length) := by
  rw [loader_stages_eq junk m s f1 loaderBin hO hOT hTD hDE hE]
  have ht := readData_length ({ data := loaderBin, pos := 0 } : ExternalFile) junk
    (s.loaderTextEnd - m.m_loaderOffset)
  have hd := readData_length
    ({ data := loaderBin, pos := s.loaderDataStart - m.m_loaderOffset } : ExternalFile) junk
    (s.loaderDataEnd - s.loaderDataStart)
  obtain ⟨w1, w2, w3, w4, w5, -⟩ := loader_writes f1 (m.m_loaderOffset - 0x100000)
    (s.loaderDataStart - 0x100000)
    (({ data := loaderBin, pos := 0 } : ExternalFile).readData junk
      (s.loaderTextEnd - m.m_loaderOffset)).1
    (({ data := loaderBin, pos := s.loaderDataStart - m.m_loaderOffset }
        : ExternalFile).readData junk (s.loaderDataEnd - s.loaderDataStart)).1
    (by rw [ht]; omega)
  rw [ht] at w1 w2
  rw [hd] at w3 w5
  refine ⟨?_, ?_, ?_, w4, ?_⟩
  · intro i hi
    have h1 : m.m_loaderOffset - 0x100000 ≤ m.m_loaderOffset - 0x100000 + i := by omega
    have h2 : m.m_loaderOffset - 0x100000 + i
        < m.m_loaderOffset - 0x100000 + (s.loaderTextEnd - m.m_loaderOffset) := by omega
    have e : m.m_loaderOffset - 0x100000 + i - (m.m_loaderOffset - 0x100000) = i := by omega
    rw [w1 _ h1 h2, e]
  · intro p h1 h2
    exact w2 p (by omega) h2
  · intro i hi
    have h1 : s.loaderDataStart - 0x100000 ≤ s.loaderDataStart - 0x100000 + i := by omega
    have h2 : s.loaderDataStart - 0x100000 + i
        < s.loaderDataStart - 0x100000 + (s.loaderDataEnd - s.loaderDataStart) := by omega
    have e : s.loaderDataStart - 0x100000 + i - (s.loaderDataStart - 0x100000) = i := by omega
    rw [w3 _ h1 h2, e]
  · intro h
    exact w5 (by omega)

theorem insert_codeBin (toUInt : String → Option Nat) (junk : Nat → Nat) (m : PatchMaker)
    (fs : ProjectFiles) (s : LoaderSyms)
    (hr : resolveSymbols toUInt fs.loaderSym = Except.ok s) :
    (PatchMaker.insert toUInt junk m fs).1.codeBin
      = (PatchMaker.spliceData junk m s
          (PatchMaker.splicePadding s
            (PatchMaker.spliceText junk m s (PatchMaker.spliceBss m s fs.codeBin) fs.loaderBin))
          fs.loaderBin).data := by
  rw [insert_ok toUInt junk m fs s hr]
  rfl

theorem insert_exheaderBin (toUInt : String → Option Nat) (junk : Nat → Nat) (m : PatchMaker)
    (fs : ProjectFiles) (s : LoaderSyms)
    (hr : resolveSymbols toUInt fs.loaderSym = Except.ok s) :
    (PatchMaker.insert toUInt junk m fs).1.exheaderBin
      = PatchMaker.fixExheader fs.exheaderBin (sub32 s.loaderDataEnd m.m_newCodeOffset) := by
  rw [insert_ok toUInt junk m fs s hr]

/-- C11: with `0x100000 <= loader_offset <= loader_text_end <= loader_data_start <=
loader_data_end` and a loader image of at least `loader_data_end - loader_offset` bytes, the
final code image holds the first `loader_text_end - loader_offset` bytes of the loader image
from file offset `loader_offset - 0x100000` on, and the loader image bytes from offset
`loader_data_start - loader_offset` on at file offsets `loader_data_start - 0x100000` up to
`loader_data_end - 0x100000`. -/
theorem C11_splice_loader_sections (toUInt : String → Option Nat) (junk : Nat → Nat)
    (m : PatchMaker) (fs : ProjectFiles) (s : LoaderSyms)
    (hr : resolveSymbols toUInt fs.loaderSym = Except.ok s)
    (hO : 0x100000 ≤ m.m_loaderOffset) (hOT : m.m_loaderOffset ≤ s.loaderTextEnd)
    (hTD : s.loaderTextEnd ≤ s.loaderDataStart) (hDE : s.loaderDataStart ≤ s.loaderDataEnd)
    (hE : s.loaderDataEnd < 2 ^ 32)
    (hL : s.loaderDataEnd - m.m_loaderOffset ≤ fs.loaderBin.length) :
    (∀ i, i < s.loaderTextEnd - m.m_loaderOffset →
      i < fs.loaderBin.length
      ∧ (PatchMaker.insert toUInt junk m fs).1.codeBin[m.m_loaderOffset - 0x100000 + i]?
          = fs.loaderBin[i]?)
    ∧ (∀ i, i < s.loaderDataEnd - s.loaderDataStart →
      s.loaderDataStart - m.m_loaderOffset + i < fs.loaderBin.length
      ∧ (PatchMaker.insert toUInt junk m fs).1.codeBin[s.loaderDataStart - 0x100000 + i]?
          = fs.loaderBin[s.loaderDataStart - m.m_loaderOffset + i]?) := by
  rw [insert_codeBin toUInt junk m fs s hr]
  obtain ⟨w1, -, w3, -, -⟩ := loader_stages_props junk m s (PatchMaker.spliceBss m s fs.codeBin)
    fs.loaderBin hO hOT hTD hDE hE
  refine ⟨?_, ?_⟩
  · intro i hi
    refine ⟨by omega, ?_⟩
    rw [w1 i hi, readData_get _ junk _ i hi (by show 0 + _ ≤ fs.loaderBin.length; omega)]
    show fs.loaderBin[0 + i]? = _
    rw [Nat.zero_add]
  · intro i hi
    refine ⟨by omega, ?_⟩
    rw [w3 i hi, readData_get _ junk _ i hi (by
      show s.loaderDataStart - m.m_loaderOffset + _ ≤ fs.loaderBin.length; omega)]

/-- C11 (worked splice): six bytes of code, loader text `[0x100002, 0x100004)` and loader
data `[0x10000A, 0x10000C)` taken from a ten-byte loader image. -/
theorem C11_splice_loader_sections_witness :
    (PatchMaker.insert hexToUInt (fun _ => 0) exampleLayout exampleSpliceFiles).1.codeBin
        = [1, 2, 11, 12, 0, 0, 0, 0, 0, 0, 19, 20]
    ∧ (1 < exampleSpliceFiles.loaderBin.length
      ∧ (PatchMaker.insert hexToUInt (fun _ => 0) exampleLayout exampleSpliceFiles).1.codeBin[
            exampleLayout.m_loaderOffset - 0x100000 + 1]?
          = exampleSpliceFiles.loaderBin[1]?) :=
  ⟨by decide,
    (C11_splice_loader_sections hexToUInt (fun _ => 0) exampleLayout exampleSpliceFiles
      (scanLines hexToUInt exampleListing) (by decide) (by decide) (by decide) (by decide)
      (by decide) (by decide) (by decide)).1 1 (by decide)⟩

/-- C12 (as stated, refuted): in the worked splice with a code image of twelve bytes the
symbols are in order and the image is not longer than `loader_data_end - 0x100000 = 12`; the
bytes at file offsets 4 and 10 lie below the old size and outside the loader text range
`[2, 4)`; they were `5` and `11` and are `0` (padding) and `19` (loader data) in the final
image. -/
theorem C12_original_bytes_counterexample :
    resolveSymbols hexToUInt fullSpliceFiles.loaderSym
        = Except.ok (scanLines hexToUInt exampleListing)
    ∧ exampleLayout.m_loaderOffset ≤ (scanLines hexToUInt exampleListing).loaderTextEnd
    ∧ (scanLines hexToUInt exampleListing).loaderTextEnd
        ≤ (scanLines hexToUInt exampleListing).loaderDataStart
    ∧ (scanLines hexToUInt exampleListing).loaderDataStart
        ≤ (scanLines hexToUInt exampleListing).loaderDataEnd
    ∧ fullSpliceFiles.codeBin.length
        ≤ (scanLines hexToUInt exampleListing).loaderDataEnd - 0x100000
    ∧ 10 < fullSpliceFiles.codeBin.length
    ∧ exampleLayout.m_loaderOffset - 0x100000 = 2
    ∧ (scanLines hexToUInt exampleListing).loaderTextEnd - 0x100000 = 4
    ∧ fullSpliceFiles.codeBin[4]? = some 5
    ∧ (PatchMaker.insert hexToUInt (fun _ => 0) exampleLayout fullSpliceFiles).1.codeBin[4]?
        = some 0
    ∧ fullSpliceFiles.codeBin[10]? = some 11
    ∧ (PatchMaker.insert hexToUInt (fun _ => 0) exampleLayout fullSpliceFiles).1.codeBin[10]?
        = some 19 := by
  decide

/-- C12 (amended): with `0x100000 <= loader_offset <= loader_text_end <= loader_data_start
<= loader_data_end` and an original image of at most `loader_data_end - 0x100000` bytes,
every byte of the original image at a file offset outside the range from
`loader_offset - 0x100000` up to `loader_data_end - 0x100000` is unchanged in the final code
image. -/
theorem C12_original_bytes_outside_loader (toUInt : String → Option Nat) (junk : Nat → Nat)
    (m : PatchMaker) (fs : ProjectFiles) (s : LoaderSyms)
    (hr : resolveSymbols toUInt fs.loaderSym = Except.ok s)
    (hO : 0x100000 ≤ m.m_loaderOffset) (hOT : m.m_loaderOffset ≤ s.loaderTextEnd)
    (hTD : s.loaderTextEnd ≤ s.loaderDataStart) (hDE : s.loaderDataStart ≤ s.loaderDataEnd)
    (hE : s.loaderDataEnd < 2 ^ 32)
    (hS : fs.codeBin.length ≤ s.loaderDataEnd - 0x100000)
    (p : Nat) (hp : p < fs.codeBin.length)
    (hout : ¬ (m.m_loaderOffset - 0x100000 ≤ p ∧ p < s.loaderDataEnd - 0x100000)) :
    (PatchMaker.insert toUInt junk m fs).1.codeBin[p]? = fs.codeBin[p]? := by
  have hpO : p < m.m_loaderOffset - 0x100000 := by omega
  rw [insert_codeBin toUInt junk m fs s hr]
  obtain ⟨-, -, -, w4, -⟩ := loader_stages_props junk m s (PatchMaker.spliceBss m s fs.codeBin)
    fs.loaderBin hO hOT hTD hDE hE
  obtain ⟨-, b2, -, b4⟩ := spliceBss_props m s fs.codeBin
  have hu : u32 fs.codeBin.length = fs.codeBin.length := by
    simp only [u32]; norm_num at hE; omega
  have he : sub32 s.loaderDataEnd 0x100000 = s.loaderDataEnd - 0x100000 :=
    sub32_eq _ _ (by omega) hE
  rw [hu, he] at b2 b4
  have hpE : p < s.loaderDataEnd - 0x100000 := by omega
  have hlen : p < (PatchMaker.spliceBss m s fs.codeBin).data.length := by
    rw [b2]
    by_cases h : fs.codeBin.length < sub32 m.m_newCodeOffset 0x100000
    · rw [if_pos h]
      exact Nat.lt_of_lt_of_le hp
        (Nat.le_trans (Nat.le_max_left _ _) (Nat.le_max_left _ _))
    · rw [if_neg h]
      exact Nat.lt_of_lt_of_le hp (Nat.le_max_left _ _)
  rw [w4 p hpO hlen]
  exact b4 p hp hpE

/-- C12 (amended, worked splice): the byte at file offset 1, below the loader text at
offset 2, is unchanged. -/
theorem C12_original_bytes_outside_loader_witness :
    (PatchMaker.insert hexToUInt (fun _ => 0) exampleLayout fullSpliceFiles).1.codeBin[1]?
        = some 2
    ∧ (PatchMaker.insert hexToUInt (fun _ => 0) exampleLayout fullSpliceFiles).1.codeBin[1]?
        = fullSpliceFiles.codeBin[1]? :=
  ⟨by decide,
    C12_original_bytes_outside_loader hexToUInt (fun _ => 0) exampleLayout fullSpliceFiles
      (scanLines hexToUInt exampleListing) (by decide) (by decide) (by decide) (by decide)
      (by decide) (by decide) (by decide) 1 (by decide) (by decide)⟩

/-- C13: for an original image of `S0` bytes and `new_code_offset >= 0x100000`, the
bss-clearing loop advances the position from `S0` by `(new_code_offset - 0x100000) - S0`
bytes (none when `S0` is not below the target), leaves zero at every file offset from `S0`
up to `new_code_offset - 0x100000`, changes no other byte of the resized file, and is
followed by the stages that write the loader text, padding and data. -/
theorem C13_bss_zero_fill (m : PatchMaker) (s : LoaderSyms) (codeBin : List Nat)
    (hS : codeBin.length < 2 ^ 32) (hN : 0x100000 ≤ m.m_newCodeOffset)
    (hN2 : m.m_newCodeOffset < 2 ^ 32) :
    (PatchMaker.spliceBss m s codeBin).pos
        = codeBin.length + (m.m_newCodeOffset - 0x100000 - codeBin.length)
    ∧ (∀ p, codeBin.length ≤ p → p < m.m_newCodeOffset - 0x100000 →
        (PatchMaker.spliceBss m s codeBin).data[p]? = some 0)
    ∧ (∀ p, p < codeBin.length ∨ m.m_newCodeOffset - 0x100000 ≤ p →
        p < sub32 s.loaderDataEnd 0x100000 →
        (PatchMaker.spliceBss m s codeBin).data[p]?
          = (({ data := codeBin, pos := 0 } : ExternalFile).resize
              (sub32 s.loaderDataEnd 0x100000)).data[p]?)
    ∧ (m.m_newCodeOffset - 0x100000 ≤ codeBin.length →
        PatchMaker.spliceBss m s codeBin
          = (({ data := codeBin, pos := 0 } : ExternalFile).resize
              (sub32 s.loaderDataEnd 0x100000)).seek codeBin.length)
    ∧ (∀ (junk : Nat → Nat) (loaderBin : List Nat),
        PatchMaker.splice junk m s codeBin loaderBin
          = (PatchMaker.spliceData junk m s
              (PatchMaker.splicePadding s
                (PatchMaker.spliceText junk m s (PatchMaker.spliceBss m s codeBin) loaderBin))
              loaderBin).data) := by
  have hu : u32 codeBin.length = codeBin.length := by
    simp only [u32]; norm_num at hS; omega
  have hn : sub32 m.m_newCodeOffset 0x100000 = m.m_newCodeOffset - 0x100000 :=
    sub32_eq _ _ hN hN2
  have hr : (({ data := codeBin, pos := 0 } : ExternalFile).resize
      (sub32 s.loaderDataEnd 0x100000)).data.length
      = max codeBin.length (sub32 s.loaderDataEnd 0x100000) :=
    resize_length ({ data := codeBin, pos := 0 } : ExternalFile)
      (sub32 s.loaderDataEnd 0x100000)
  have hdef : PatchMaker.spliceBss m s codeBin
      = clearTo ((({ data := codeBin, pos := 0 } : ExternalFile).resize
          (sub32 s.loaderDataEnd 0x100000)).seek codeBin.length)
          (m.m_newCodeOffset - 0x100000) := by
    simp only [PatchMaker.spliceBss, ExternalFile.size, hu, hn]
  refine ⟨?_, ?_, ?_, ?_, fun junk loaderBin => splice_stages junk m s codeBin loaderBin⟩
  all_goals rw [hdef]
  all_goals generalize m.m_newCodeOffset - 0x100000 = n
  all_goals generalize hf : (ExternalFile.resize { data := codeBin, pos := 0 }
    (sub32 s.loaderDataEnd 0x100000)) = f0 at hr
  · rw [clearTo_pos]
    show max codeBin.length n = _
    omega
  · intro p h1 h2
    exact clearTo_inside _ _ p h1 h2
  · intro p h1 h2
    rw [clearTo_outside (f0.seek codeBin.length) n p (by
      rcases h1 with h1 | h1
      · exact Or.inl ⟨h1, by
          show p < f0.data.length
          rw [hr]; exact Nat.lt_of_lt_of_le h2 (Nat.le_max_right _ _)⟩
      · exact Or.inr h1)]
    rfl
  · intro h
    exact clearTo_done _ _ h

/-- C13 (worked example): an empty code image and `new_code_offset = 0x100010` give exactly
`0x10` zero bytes after the bss stage, with the position at `0x10`. -/
theorem C13_bss_zero_fill_witness :
    (PatchMaker.spliceBss bssLayout (scanLines hexToUInt bssFiles.loaderSym) []).data
        = List.replicate 0x10 0
    ∧ (PatchMaker.spliceBss bssLayout (scanLines hexToUInt bssFiles.loaderSym) []).pos = 0x10
    ∧ (PatchMaker.spliceBss bssLayout (scanLines hexToUInt bssFiles.loaderSym) []).pos
        = ([] : List Nat).length + (bssLayout.m_newCodeOffset - 0x100000 - ([] : List Nat).length) :=
  ⟨by decide, by decide,
    (C13_bss_zero_fill bssLayout (scanLines hexToUInt bssFiles.loaderSym) [] (by decide)
      (by decide) (by decide)).1⟩

/-- C14 (as stated, refuted): with an empty code image, all four symbols at `0x100000` and
the injected code at `0x100010`, resolution succeeds, `loader_data_end - 0x100000` is `0`,
and the final code image is `0x10` bytes long: the bss loop wrote past the resized end.
With `__text_end = 0x100008` past `__data_end = 0x100004`, `loader_data_end - 0x100000` is
`4` and the final code image is `8` bytes long: the loader text was written past the resized
end.  With a code image of three bytes and `__data_end = 0x100001`,
`loader_data_end - 0x100000` is `1` and the final code image keeps its three bytes. -/
theorem C14_result_size_counterexample :
    (resolveSymbols hexToUInt bssFiles.loaderSym
        = Except.ok (scanLines hexToUInt bssFiles.loaderSym)
      ∧ (scanLines hexToUInt bssFiles.loaderSym).loaderDataEnd - 0x100000 = 0
      ∧ (PatchMaker.insert hexToUInt (fun _ => 0) bssLayout bssFiles).1.codeBin.length = 0x10)
    ∧ (resolveSymbols hexToUInt pastEndFiles.loaderSym
        = Except.ok (scanLines hexToUInt pastEndFiles.loaderSym)
      ∧ (scanLines hexToUInt pastEndFiles.loaderSym).loaderDataEnd - 0x100000 = 4
      ∧ (PatchMaker.insert hexToUInt (fun _ => 0) earlyCodeLayout
          pastEndFiles).1.codeBin.length = 8)
    ∧ (resolveSymbols hexToUInt shrinkFiles.loaderSym
        = Except.ok (scanLines hexToUInt shrinkFiles.loaderSym)
      ∧ (scanLines hexToUInt shrinkFiles.loaderSym).loaderDataEnd - 0x100000 = 1
      ∧ (PatchMaker.insert hexToUInt (fun _ => 0) earlyCodeLayout
          shrinkFiles).1.codeBin.length = 3) := by
  decide

/-- C14 (amended): after a successful resolution the header fixup receives the 32-bit value
`loader_data_end - new_code_offset`; when `0x100000 <= loader_offset <= loader_text_end <=
loader_data_start <= loader_data_end`, `0x100000 <= new_code_offset <= loader_data_end` and
the original image has at most `loader_data_end - 0x100000` bytes, the final code image is
exactly `loader_data_end - 0x100000` bytes long, which is `(new_code_offset - 0x100000)`
plus the value handed to the fixup. -/
theorem C14_result_size (toUInt : String → Option Nat) (junk : Nat → Nat)
    (m : PatchMaker) (fs : ProjectFiles) (s : LoaderSyms)
    (hr : resolveSymbols toUInt fs.loaderSym = Except.ok s) :
    (PatchMaker.insert toUInt junk m fs).1.exheaderBin
        = PatchMaker.fixExheader fs.exheaderBin (sub32 s.loaderDataEnd m.m_newCodeOffset)
    ∧ (0x100000 ≤ m.m_loaderOffset → m.m_loaderOffset ≤ s.loaderTextEnd →
        s.loaderTextEnd ≤ s.loaderDataStart → s.loaderDataStart ≤ s.loaderDataEnd →
        s.loaderDataEnd < 2 ^ 32 →
        0x100000 ≤ m.m_newCodeOffset → m.m_newCodeOffset ≤ s.loaderDataEnd →
        fs.codeBin.length ≤ s.loaderDataEnd - 0x100000 →
        (PatchMaker.insert toUInt junk m fs).1.codeBin.length = s.loaderDataEnd - 0x100000
        ∧ (PatchMaker.insert toUInt junk m fs).1.codeBin.length
            = (m.m_newCodeOffset - 0x100000) + sub32 s.loaderDataEnd m.m_newCodeOffset) := by
  refine ⟨insert_exheaderBin toUInt junk m fs s hr, ?_⟩
  intro hO hOT hTD hDE hE hN hNE hS
  rw [insert_codeBin toUInt junk m fs s hr]
  obtain ⟨-, -, -, -, w5⟩ := loader_stages_props junk m s (PatchMaker.spliceBss m s fs.codeBin)
    fs.loaderBin hO hOT hTD hDE hE
  obtain ⟨-, b2, -, -⟩ := spliceBss_props m s fs.codeBin
  have he : sub32 s.loaderDataEnd 0x100000 = s.loaderDataEnd - 0x100000 :=
    sub32_eq _ _ (by omega) hE
  have hn : sub32 m.m_newCodeOffset 0x100000 = m.m_newCodeOffset - 0x100000 :=
    sub32_eq _ _ hN (by omega)
  have hd : sub32 s.loaderDataEnd m.m_newCodeOffset = s.loaderDataEnd - m.m_newCodeOffset :=
    sub32_eq _ _ hNE hE
  have hle : m.m_newCodeOffset - 0x100000 ≤ s.loaderDataEnd - 0x100000 := by omega
  have hmax : max fs.codeBin.length (s.loaderDataEnd - 0x100000)
      = s.loaderDataEnd - 0x100000 := Nat.max_eq_right hS
  have hlen : (PatchMaker.spliceBss m s fs.codeBin).data.length
      = s.loaderDataEnd - 0x100000 := by
    rw [b2, he, hn, hmax]
    by_cases h : u32 fs.codeBin.length < m.m_newCodeOffset - 0x100000
    · rw [if_pos h]
      exact Nat.max_eq_left hle
    · rw [if_neg h]
  rw [w5 (by rw [hlen]), hlen, hd]
  refine ⟨rfl, ?_⟩
  omega

/-- C14 (amended, worked splice): the final image has `0x10000C - 0x100000 = 12` bytes,
`8` up to the injected code offset plus the `4` handed to the fixup. -/
theorem C14_result_size_witness :
    (PatchMaker.insert hexToUInt (fun _ => 0) exampleLayout exampleSpliceFiles).1.codeBin.length
        = 12
    ∧ sub32 (scanLines hexToUInt exampleListing).loaderDataEnd exampleLayout.m_newCodeOffset = 4
    ∧ ((PatchMaker.insert hexToUInt (fun _ => 0) exampleLayout
            exampleSpliceFiles).1.codeBin.length
          = (scanLines hexToUInt exampleListing).loaderDataEnd - 0x100000
        ∧ (PatchMaker.insert hexToUInt (fun _ => 0) exampleLayout
            exampleSpliceFiles).1.codeBin.length
          = (exampleLayout.m_newCodeOffset - 0x100000)
            + sub32 (scanLines hexToUInt exampleListing).loaderDataEnd
                exampleLayout.m_newCodeOffset) :=
  ⟨by decide, by decide,
    (C14_result_size hexToUInt (fun _ => 0) exampleLayout exampleSpliceFiles
      (scanLines hexToUInt exampleListing) (by decide)).2 (by decide) (by decide) (by decide)
      (by decide) (by decide) (by decide) (by decide) (by decide)⟩

theorem clearTo_seek_length_le (f : ExternalFile) (q t : Nat) :
    f.data.length ≤ (clearTo (f.seek q) t).data.length :=
  clearTo_length_le (f.seek q) t

/-- The bss stage never shortens the code file. -/
theorem spliceBss_length_le (m : PatchMaker) (s : LoaderSyms) (codeBin : List Nat) :
    codeBin.length ≤ (PatchMaker.spliceBss m s codeBin).data.length := by
  have h1 : codeBin.length
      ≤ (({ data := codeBin, pos := 0 } : ExternalFile).resize
          (sub32 s.loaderDataEnd 0x100000)).data.length :=
    resize_length_le ({ data := codeBin, pos := 0 } : ExternalFile)
      (sub32 s.loaderDataEnd 0x100000)
  have h2 : (({ data := codeBin, pos := 0 } : ExternalFile).resize
        (sub32 s.loaderDataEnd 0x100000)).data.length
      ≤ (PatchMaker.spliceBss m s codeBin).data.length := by
    simp only [PatchMaker.spliceBss]
    exact clearTo_seek_length_le _ _ _
  exact Nat.le_trans h1 h2

/-- C15: for every original code image, every symbol listing and every layout, the code
image that `insert` leaves is at least as long as the original one: the resize grows the
file, the writes replace or append bytes, and a failed resolution leaves the file alone. -/
theorem C15_never_shrunk (toUInt : String → Option Nat) (junk : Nat → Nat)
    (m : PatchMaker) (fs : ProjectFiles) :
    fs.codeBin.length ≤ (PatchMaker.insert toUInt junk m fs).1.codeBin.length
    ∧ (∀ (s : LoaderSyms) (codeBin loaderBin : List Nat),
        codeBin.length ≤ (PatchMaker.splice junk m s codeBin loaderBin).length) := by
  have hsplice : ∀ (s : LoaderSyms) (codeBin loaderBin : List Nat),
      codeBin.length ≤ (PatchMaker.splice junk m s codeBin loaderBin).length := by
    intro s codeBin loaderBin
    rw [splice_stages]
    exact Nat.le_trans (spliceBss_length_le m s codeBin)
      (loader_stages_length_le junk m s (PatchMaker.spliceBss m s codeBin) loaderBin)
  refine ⟨?_, hsplice⟩
  cases hr : resolveSymbols toUInt fs.loaderSym with
  | error e =>
    have he : PatchMaker.insert toUInt junk m fs
        = (fs, [Signal.updateStatus "Inserting...", Signal.updateStatus e,
            Signal.setBusy false]) := by
      unfold PatchMaker.insert
      rw [hr]
    rw [he]
  | ok s =>
    rw [insert_codeBin toUInt junk m fs s hr, ← splice_stages]
    exact hsplice s fs.codeBin fs.loaderBin

/-- C17 (as stated, refuted): with the symbols in order and the injected code offset
`0x100000` below the end of the loader text `0x100002`, the byte at file offset 0 lies in
`[new_code_offset - 0x100000, loader_data_start - 0x100000) = [0, 4)` and holds the loader
text byte `9`. -/
theorem C17_padding_counterexample :
    resolveSymbols hexToUInt earlyCodeFiles.loaderSym
        = Except.ok (scanLines hexToUInt earlyCodeFiles.loaderSym)
    ∧ 0x100000 ≤ earlyCodeLayout.m_loaderOffset
    ∧ earlyCodeLayout.m_loaderOffset ≤ (scanLines hexToUInt earlyCodeFiles.loaderSym).loaderTextEnd
    ∧ (scanLines hexToUInt earlyCodeFiles.loaderSym).loaderTextEnd
        ≤ (scanLines hexToUInt earlyCodeFiles.loaderSym).loaderDataStart
    ∧ (scanLines hexToUInt earlyCodeFiles.loaderSym).loaderDataStart
        ≤ (scanLines hexToUInt earlyCodeFiles.loaderSym).loaderDataEnd
    ∧ earlyCodeLayout.m_newCodeOffset - 0x100000 ≤ 0
    ∧ 0 < (scanLines hexToUInt earlyCodeFiles.loaderSym).loaderDataStart - 0x100000
    ∧ (PatchMaker.insert hexToUInt (fun _ => 0) earlyCodeLayout earlyCodeFiles).1.codeBin
        = [9, 9, 0, 0]
    ∧ (PatchMaker.insert hexToUInt (fun _ => 0) earlyCodeLayout earlyCodeFiles).1.codeBin[0]?
        ≠ some 0 := by
  decide

/-- C17 (amended): with `0x100000 <= loader_offset <= loader_text_end <= loader_data_start
<= loader_data_end`, every byte of the final code image at a file offset from
`loader_text_end - 0x100000` up to `loader_data_start - 0x100000` is zero, whatever the
original image held there; when moreover `loader_text_end <= new_code_offset`, the whole
range from `new_code_offset - 0x100000` up to `loader_data_start - 0x100000` is zero. -/
theorem C17_padding_zero (toUInt : String → Option Nat) (junk : Nat → Nat)
    (m : PatchMaker) (fs : ProjectFiles) (s : LoaderSyms)
    (hr : resolveSymbols toUInt fs.loaderSym = Except.ok s)
    (hO : 0x100000 ≤ m.m_loaderOffset) (hOT : m.m_loaderOffset ≤ s.loaderTextEnd)
    (hTD : s.loaderTextEnd ≤ s.loaderDataStart) (hDE : s.loaderDataStart ≤ s.loaderDataEnd)
    (hE : s.loaderDataEnd < 2 ^ 32) :
    (∀ p, s.loaderTextEnd - 0x100000 ≤ p → p < s.loaderDataStart - 0x100000 →
      (PatchMaker.insert toUInt junk m fs).1.codeBin[p]? = some 0)
    ∧ (s.loaderTextEnd ≤ m.m_newCodeOffset →
      ∀ p, m.m_newCodeOffset - 0x100000 ≤ p → p < s.loaderDataStart - 0x100000 →
        (PatchMaker.insert toUInt junk m fs).1.codeBin[p]? = some 0) := by
  rw [insert_codeBin toUInt junk m fs s hr]
  obtain ⟨-, w2, -, -, -⟩ := loader_stages_props junk m s (PatchMaker.spliceBss m s fs.codeBin)
    fs.loaderBin hO hOT hTD hDE hE
  refine ⟨w2, fun hTN p h1 h2 => w2 p (by omega) h2⟩

/-- C17 (amended, worked splice): offsets 4 to 9 are zero, among them 8 and 9, the range
kept for the injected code, and 4 and 5, where the original image held `5` and `6`. -/
theorem C17_padding_zero_witness :
    exampleSpliceFiles.codeBin[4]? = some 5
    ∧ (PatchMaker.insert hexToUInt (fun _ => 0) exampleLayout exampleSpliceFiles).1.codeBin[4]?
        = some 0
    ∧ (PatchMaker.insert hexToUInt (fun _ => 0) exampleLayout exampleSpliceFiles).1.codeBin[8]?
        = some 0 :=
  ⟨by decide,
    (C17_padding_zero hexToUInt (fun _ => 0) exampleLayout exampleSpliceFiles
      (scanLines hexToUInt exampleListing) (by decide) (by decide) (by decide) (by decide)
      (by decide) (by decide)).1 4 (by decide) (by decide),
    (C17_padding_zero hexToUInt (fun _ => 0) exampleLayout exampleSpliceFiles
      (scanLines hexToUInt exampleListing) (by decide) (by decide) (by decide) (by decide)
      (by decide) (by decide)).2 (by decide) 8 (by decide) (by decide)⟩

/-! ## Branch encoder -/

/-- The opcode is the base byte times `2 ^ 24` plus the offset reduced modulo `2 ^ 24`. -/
theorem makeBranchOpcode_eq (src dest : Nat) (link : Bool) :
    PatchMaker.makeBranchOpcode src dest link
      = 2 ^ 24 * (if link then 0xEB else 0xEA)
        + sub32 (sub32 (dest / 4) (src / 4)) 2 % 2 ^ 24 := by
  have hand : ∀ x : Nat, and32 x 0x00FFFFFF = x % 2 ^ 24 := by
    intro x
    have := Nat.and_pow_two_sub_one_eq_mod x 24
    simpa [and32] using this
  have hlt : sub32 (sub32 (dest / 4) (src / 4)) 2 % 2 ^ 24 < 2 ^ 24 :=
    Nat.mod_lt _ (by decide)
  simp only [PatchMaker.makeBranchOpcode, hand]
  cases link
  · rw [if_neg (by decide), if_neg (by decide), Nat.mul_add_lt_is_or hlt]
  · rw [if_pos rfl, if_pos rfl, Nat.mul_add_lt_is_or hlt]
    have e : (0xEA000000 ||| 0x01000000 : Nat) = 2 ^ 24 * 0xEB := by decide
    rw [e]

theorem sub32_sub32_int (a b : Nat) :
    ((sub32 (sub32 a b) 2 : Nat) : Int) = ((a : Int) - (b : Int) - 2) % 4294967296 := by
  simp only [sub32, u32]
  omega

/-- C16: the low 24 bits of the opcode are `((dest / 4) - (src / 4) - 2) & 0x00FFFFFF`
computed in 32-bit arithmetic, that is the difference reduced modulo `2 ^ 24`, and the top
8 bits are `0xEA` without link and `0xEB` with link. -/
theorem C16_makeBranchOpcode_fields (src dest : Nat) (link : Bool) :
    PatchMaker.makeBranchOpcode src dest link % 2 ^ 24
        = and32 (sub32 (sub32 (dest / 4) (src / 4)) 2) 0x00FFFFFF
    ∧ ((PatchMaker.makeBranchOpcode src dest link % 2 ^ 24 : Nat) : Int)
        = (((dest / 4 : Nat) : Int) - ((src / 4 : Nat) : Int) - 2) % 2 ^ 24
    ∧ PatchMaker.makeBranchOpcode src dest link / 2 ^ 24 = (if link then 0xEB else 0xEA)
    ∧ PatchMaker.makeBranchOpcode src dest link < 2 ^ 32 := by
  have hand : and32 (sub32 (sub32 (dest / 4) (src / 4)) 2) 0x00FFFFFF
      = sub32 (sub32 (dest / 4) (src / 4)) 2 % 2 ^ 24 := by
    have := Nat.and_pow_two_sub_one_eq_mod (sub32 (sub32 (dest / 4) (src / 4)) 2) 24
    simpa [and32] using this
  have hi := sub32_sub32_int (dest / 4) (src / 4)
  rw [makeBranchOpcode_eq, hand]
  generalize sub32 (sub32 (dest / 4) (src / 4)) 2 = x at hi
  generalize (((dest / 4 : Nat) : Int) - ((src / 4 : Nat) : Int) - 2) = d at hi
  cases link
  · simp only [Bool.false_eq_true, if_false]
    norm_num
    omega
  · simp only [if_true]
    norm_num
    omega

/-- The low 24 bits of the opcode are those of the 32-bit offset. -/
theorem makeBranchOpcode_low (src dest : Nat) (link : Bool) :
    PatchMaker.makeBranchOpcode src dest link % 2 ^ 24
      = sub32 (sub32 (dest / 4) (src / 4)) 2 % 2 ^ 24 := by
  rw [makeBranchOpcode_eq, Nat.mul_add_mod, Nat.mod_mod]

/-- Sign extension undoes the reduction modulo `2 ^ 24` on `[-2 ^ 23, 2 ^ 23)`. -/
theorem signExtend24_of_int (x : Nat) (d : Int) (hx : (x : Int) = d % 4294967296)
    (hlo : -8388608 ≤ d) (hhi : d < 8388608) : signExtend24 (x % 16777216) = d := by
  unfold signExtend24
  by_cases hneg : d < 0
  · have hx2 : (x : Int) = d + 4294967296 := by omega
    have hy : ((x % 16777216 : Nat) : Int) = d + 16777216 := by omega
    rw [if_neg (by omega), hy]
    omega
  · have hx2 : (x : Int) = d := by omega
    have hy : ((x % 16777216 : Nat) : Int) = d := by omega
    rw [if_pos (by omega), hy]

/-- C19: for `src` and `dest` that are multiples of 4 and a signed word distance
`dest / 4 - src / 4 - 2` in `[-2 ^ 23, 2 ^ 23)`, decoding the opcode at `src` gives `dest`
back, with and without link. -/
theorem C19_branch_round_trip (src dest : Nat) (link : Bool)
    (hs : src % 4 = 0) (hd : dest % 4 = 0) (hd32 : dest < 2 ^ 32)
    (hlo : -(2 : Int) ^ 23 ≤ ((dest / 4 : Nat) : Int) - ((src / 4 : Nat) : Int) - 2)
    (hhi : ((dest / 4 : Nat) : Int) - ((src / 4 : Nat) : Int) - 2 < (2 : Int) ^ 23) :
    branchTarget src (PatchMaker.makeBranchOpcode src dest link) = dest := by
  have hand : PatchMaker.makeBranchOpcode src dest link &&& 0x00FFFFFF
      = PatchMaker.makeBranchOpcode src dest link % 2 ^ 24 :=
    Nat.and_pow_two_sub_one_eq_mod _ 24
  have hi := sub32_sub32_int (dest / 4) (src / 4)
  unfold branchTarget
  rw [hand, makeBranchOpcode_low]
  generalize sub32 (sub32 (dest / 4) (src / 4)) 2 = x at hi
  have ha : (src : Int) = 4 * ((src / 4 : Nat) : Int) := by omega
  have hb : (dest : Int) = 4 * ((dest / 4 : Nat) : Int) := by omega
  generalize ((src / 4 : Nat) : Int) = a at hi hlo hhi ha
  generalize ((dest / 4 : Nat) : Int) = b at hi hlo hhi hb
  norm_num at hlo hhi hd32
  have hse := signExtend24_of_int x (b - a - 2) hi (by omega) (by omega)
  have e24 : (2 : Nat) ^ 24 = 16777216 := by norm_num
  rw [e24, hse]
  have key : ((src : Int) + 8 + 4 * (b - a - 2)) % 4294967296 = (dest : Int) := by
    clear hse hi hand
    omega
  rw [key]
  exact Int.toNat_ofNat dest
/-- C19 (instances): a backward branch from `0x100010` to `0x100000` and a forward branch
the other way, without and with link. -/
theorem C19_branch_round_trip_witness :
    PatchMaker.makeBranchOpcode 0x100010 0x100000 false = 0xEAFFFFFA
    ∧ branchTarget 0x100010 (PatchMaker.makeBranchOpcode 0x100010 0x100000 false) = 0x100000
    ∧ branchTarget 0x100000 (PatchMaker.makeBranchOpcode 0x100000 0x100010 true) = 0x100010 :=
  ⟨by decide,
    C19_branch_round_trip 0x100010 0x100000 false (by decide) (by decide) (by decide)
      (by decide) (by decide),
    C19_branch_round_trip 0x100000 0x100010 true (by decide) (by decide) (by decide)
      (by decide) (by decide)⟩

/-! ## Header and image -/

theorem fixExheader_data_size (h : Exheader) (n : Nat) :
    (PatchMaker.fixExheader h n).dataCodeSetInfo.size
      = (h.dataCodeSetInfo.physicalRegionSize + (h.bssSize + 4095) % 4294967296 / 4096
          + (n + 4095) % 4294967296 / 4096) % 4294967296 * 4096 % 4294967296 := by
  have key : (PatchMaker.fixExheader h n).dataCodeSetInfo.size
      = shl32 (add32 (add32 h.dataCodeSetInfo.physicalRegionSize
          (shr32 (alignUp h.bssSize 0x1000) 12)) (shr32 (alignUp n 0x1000) 12)) 12 := rfl
  rw [key, alignUp_0x1000, alignUp_0x1000]
  simp only [shl32, add32, shr32, u32, Nat.shiftRight_eq_div_pow, Nat.shiftLeft_eq]
  norm_num

/-- C18: for a header used for the layout and for the fixup, and `loader_data_end` at or
above the injected code offset, with `n = loader_data_end - new_code_offset` and no 32-bit
overflow, the data segment of the fixed-up header ends at `new_code_offset + align_up(n,
0x1000)`, at or past `loader_data_end`. -/
theorem C18_header_covers_image (h : Exheader) (loaderDataEnd : Nat)
    (hge : (PatchMaker.setPath h).m_newCodeOffset ≤ loaderDataEnd)
    (hE : loaderDataEnd < 2 ^ 32)
    (h1 : h.dataCodeSetInfo.physicalRegionSize * 0x1000 < 2 ^ 32)
    (h2 : h.bssSize + 0xFFF < 2 ^ 32)
    (h3 : loaderDataEnd - (PatchMaker.setPath h).m_newCodeOffset + 0xFFF < 2 ^ 32)
    (h4 : h.dataCodeSetInfo.address
          + (h.dataCodeSetInfo.physicalRegionSize + (h.bssSize + 0xFFF) / 0x1000
            + (loaderDataEnd - (PatchMaker.setPath h).m_newCodeOffset + 0xFFF) / 0x1000)
              * 0x1000 < 2 ^ 32) :
    (PatchMaker.fixExheader h
          (sub32 loaderDataEnd (PatchMaker.setPath h).m_newCodeOffset)).dataCodeSetInfo.address
        + (PatchMaker.fixExheader h
          (sub32 loaderDataEnd (PatchMaker.setPath h).m_newCodeOffset)).dataCodeSetInfo.size
      = (PatchMaker.setPath h).m_newCodeOffset
        + alignUp (loaderDataEnd - (PatchMaker.setPath h).m_newCodeOffset) 0x1000
    ∧ loaderDataEnd
      ≤ (PatchMaker.fixExheader h
          (sub32 loaderDataEnd (PatchMaker.setPath h).m_newCodeOffset)).dataCodeSetInfo.address
        + (PatchMaker.fixExheader h
          (sub32 loaderDataEnd (PatchMaker.setPath h).m_newCodeOffset)).dataCodeSetInfo.size := by
  have ho := newCodeOffset_eq h
  have hsz := fixExheader_data_size h
    (sub32 loaderDataEnd (PatchMaker.setPath h).m_newCodeOffset)
  have hsub := sub32_eq loaderDataEnd (PatchMaker.setPath h).m_newCodeOffset hge hE
  have haddr : (PatchMaker.fixExheader h
      (sub32 loaderDataEnd (PatchMaker.setPath h).m_newCodeOffset)).dataCodeSetInfo.address
      = h.dataCodeSetInfo.address := rfl
  have hnco : (PatchMaker.setPath h).m_newCodeOffset = PatchMaker.newCodeOffset h := rfl
  rw [haddr, hsz, hsub, alignUp_0x1000]
  rw [hnco] at hge h3 h4 ⊢
  generalize PatchMaker.newCodeOffset h = nco at ho hge h3 h4 ⊢
  norm_num at ho hE h1 h2 h3 h4 ⊢
  omega

/-- C18 (instance): the scenario header with `loader_data_end = 0x122200`: the data segment
of the fixed-up header ends at `0x123000`. -/
theorem C18_header_covers_image_witness :
    (PatchMaker.setPath exampleHeaderB).m_newCodeOffset = 0x122000
    ∧ (PatchMaker.fixExheader exampleHeaderB
        (sub32 0x122200 (PatchMaker.setPath exampleHeaderB).m_newCodeOffset)).dataCodeSetInfo.size
        = 0x3000
    ∧ 0x122200
      ≤ (PatchMaker.fixExheader exampleHeaderB
          (sub32 0x122200
            (PatchMaker.setPath exampleHeaderB).m_newCodeOffset)).dataCodeSetInfo.address
        + (PatchMaker.fixExheader exampleHeaderB
          (sub32 0x122200
            (PatchMaker.setPath exampleHeaderB).m_newCodeOffset)).dataCodeSetInfo.size :=
  ⟨by decide, by decide,
    (C18_header_covers_image exampleHeaderB 0x122200 (by decide) (by decide) (by decide)
      (by decide) (by decide) (by decide)).2⟩
